import Mathlib

/-!
Harvester network controller: attachment handler and bridge manager.

A shallow embedding of

* `pkg/controller/agent/nad/controller.go` (`Handler.OnChange`, `Handler.OnRemove`)
* `pkg/network/iface/bridge.go` (`NewBridge`, `Ensure`, `SyncIPv4Addr`, `ClearAddr`, `Fetch`)

Go values of type `error` are modelled by `GoError`; a Go result `(x, err)` is an
`Except GoError _` or a pair with an `Option GoError`.  Stateful collaborators (the VLAN
network, the kernel behind netlink) are threaded explicitly as a world value, and every
handler run records the collaborator calls it made, in order.
-/

set_option autoImplicit false

namespace Harvester

/-! ## Go errors -/

/-- Go error values. The constructors name the concrete error types the sources tell
apart; `wrap` is `fmt.Errorf("... %w", err)`. -/
inductive GoError where
  | LinkNotFoundError (msg : String)
  | SlaveNotFoundError (msg : String)
  | Errno (code : Nat)
  | other (msg : String)
  | wrap (msg : String) (inner : GoError)
  deriving DecidableEq, Repr

/-- `syscall.EEXIST`. -/
def EEXIST : GoError := GoError.Errno 17

/-- `syscall.ENODEV`. -/
def ENODEV : GoError := GoError.Errno 19

/-- `syscall.EADDRNOTAVAIL`. -/
def EADDRNOTAVAIL : GoError := GoError.Errno 99

/-- `errors.As(err, &netlink.LinkNotFoundError{})`: some error of the chain is a
`netlink.LinkNotFoundError`. -/
def asLinkNotFoundError : GoError → Bool
  | .LinkNotFoundError _ => true
  | .wrap _ inner => asLinkNotFoundError inner
  | _ => false

/-- `errors.As(err, &vlan.SlaveNotFoundError{})`. -/
def asSlaveNotFoundError : GoError → Bool
  | .SlaveNotFoundError _ => true
  | .wrap _ inner => asSlaveNotFoundError inner
  | _ => false

/-! ## Attachment records -/

/-- Go `map[string]string`; `none` is the nil map. -/
abbrev StringMap := Option (List (String × String))

/-- Go map indexing `m[k]`: the zero value `""` when the map is nil or the key is missing. -/
def StringMap.index (m : StringMap) (k : String) : String :=
  match m with
  | none => ""
  | some kvs => (kvs.lookup k).getD ""

/-- The fields of `nadv1.NetworkAttachmentDefinition` the handler reads. -/
structure NetworkAttachmentDefinition where
  Name : String
  DeletionTimestamp : Option Nat
  Labels : StringMap
  Annotations : StringMap
  Config : String
  deriving DecidableEq, Repr

/-- The field of `hn.NetConf` the handler reads. -/
structure NetConf where
  Vlan : Int
  deriving DecidableEq, Repr

/-- Modelled from the spec: `utils.Layer3NetworkConf` is declared outside the sources at
hand; the spec describes it as an optional CIDR whose absence is the zero value. -/
structure Layer3NetworkConf where
  CIDR : String
  deriving DecidableEq, Repr

/-- `strconv.Itoa`. -/
def Itoa (n : Int) : String := toString n

/-- `labels.Set`, a label map used as a selector. -/
abbrev LabelSet := List (String × String)

/-- Collaborator calls a handler run can make, in the order they are made. -/
inductive Call where
  | List (ns : String) (selector : LabelSet)
  | GetVlan
  | AddLocalArea (vlan : Int) (cidr : String)
  | RemoveLocalArea (vlan : Int) (cidr : String)
  deriving DecidableEq, Repr

/-- What the handler imports: constants, pure parsers and the VLAN network operations.
`σ` is the state of the node (the kernel), `V` the type of `*vlan.Vlan` handles and `M`
the type of `network.Network` values. -/
structure Deps (σ V M : Type) where
  /-- The constant `networkv1.GroupName`. -/
  GroupName : String
  /-- The constant `utils.KeyNetworkConf`. -/
  KeyNetworkConf : String
  /-- The call `json.Unmarshal([]byte(config), netconf)`. -/
  Unmarshal : String → Except GoError NetConf
  /-- The function `utils.NewLayer3NetworkConf`. -/
  NewLayer3NetworkConf : String → Except GoError Layer3NetworkConf
  /-- The function `vlan.GetVlan`. -/
  GetVlan : M → σ → Except GoError V × σ
  /-- The method `(*vlan.Vlan).AddLocalArea`. -/
  AddLocalArea : V → Int → String → σ → Option GoError × σ
  /-- The method `(*vlan.Vlan).RemoveLocalArea`. -/
  RemoveLocalArea : V → Int → String → σ → Option GoError × σ

/-- `vlanLabelKey = networkv1.GroupName + "/vlan-id"`. -/
def vlanLabelKey {σ V M : Type} (d : Deps σ V M) : String := d.GroupName ++ "/vlan-id"

/-- The type `Handler`; `nadCache` is the `List(namespace, selector)` method of the cache. -/
structure Handler (M : Type) where
  nadCache : String → LabelSet → Except GoError (List NetworkAttachmentDefinition)
  mgmtNetwork : M

/-- Result of a handler run: the returned pair, the calls made and the final node state. -/
structure Outcome (σ : Type) where
  ret : Option NetworkAttachmentDefinition
  err : Option GoError
  calls : List Call
  world : σ

/-- The annotation block shared by both handlers (controller.go 88-93 and 138-144): the
zero value unless the annotation map is non-nil and holds a non-empty value under
`utils.KeyNetworkConf`, which is then parsed. -/
def layer3NetworkConf {σ V M : Type} (d : Deps σ V M) (nad : NetworkAttachmentDefinition) :
    Except GoError Layer3NetworkConf :=
  if nad.Annotations ≠ none ∧ nad.Annotations.index d.KeyNetworkConf ≠ "" then
    d.NewLayer3NetworkConf (nad.Annotations.index d.KeyNetworkConf)
  else
    .ok ⟨""⟩

/-- `Handler.OnChange` (controller.go 63-100). -/
def OnChange {σ V M : Type} (d : Deps σ V M) (h : Handler M) (_key : String)
    (nad : Option NetworkAttachmentDefinition) (w : σ) : Outcome σ :=
  match nad with
  | none => ⟨none, none, [], w⟩
  | some nad =>
    if nad.DeletionTimestamp ≠ none then ⟨none, none, [], w⟩
    else if nad.Config = "" then ⟨some nad, none, [], w⟩
    else
      match d.Unmarshal nad.Config with
      | .error err => ⟨none, some err, [], w⟩
      | .ok netconf =>
        match d.GetVlan h.mgmtNetwork w with
        | (.error err, w1) =>
          if !asLinkNotFoundError err && !asSlaveNotFoundError err then
            ⟨none, some err, [.GetVlan], w1⟩
          else
            ⟨some nad, none, [.GetVlan], w1⟩
        | (.ok v, w1) =>
          match layer3NetworkConf d nad with
          | .error err => ⟨none, some err, [.GetVlan], w1⟩
          | .ok l3 =>
            match d.AddLocalArea v netconf.Vlan l3.CIDR w1 with
            | (some err, w2) =>
              ⟨none, some err, [.GetVlan, .AddLocalArea netconf.Vlan l3.CIDR], w2⟩
            | (none, w2) =>
              ⟨some nad, none, [.GetVlan, .AddLocalArea netconf.Vlan l3.CIDR], w2⟩

/-- `Handler.OnRemove` (controller.go 102-151). -/
def OnRemove {σ V M : Type} (d : Deps σ V M) (h : Handler M) (_key : String)
    (nad : Option NetworkAttachmentDefinition) (w : σ) : Outcome σ :=
  match nad with
  | none => ⟨none, none, [], w⟩
  | some nad =>
    if nad.Config = "" then ⟨some nad, none, [], w⟩
    else
      match d.Unmarshal nad.Config with
      | .error err => ⟨none, some err, [], w⟩
      | .ok netconf =>
        let labelSet : LabelSet := [(vlanLabelKey d, Itoa netconf.Vlan)]
        match h.nadCache "" labelSet with
        | .error err => ⟨none, some err, [.List "" labelSet], w⟩
        | .ok nads =>
          if nads.length > 1 then ⟨none, none, [.List "" labelSet], w⟩
          else
            match d.GetVlan h.mgmtNetwork w with
            | (.error err, w1) =>
              if !asLinkNotFoundError err && !asSlaveNotFoundError err then
                ⟨none, some err, [.List "" labelSet, .GetVlan], w1⟩
              else
                ⟨some nad, none, [.List "" labelSet, .GetVlan], w1⟩
            | (.ok v, w1) =>
              match layer3NetworkConf d nad with
              | .error err => ⟨none, some err, [.List "" labelSet, .GetVlan], w1⟩
              | .ok l3 =>
                match d.RemoveLocalArea v netconf.Vlan l3.CIDR w1 with
                | (some err, w2) =>
                  ⟨none, some err,
                    [.List "" labelSet, .GetVlan, .RemoveLocalArea netconf.Vlan l3.CIDR], w2⟩
                | (none, w2) =>
                  ⟨some nad, none,
                    [.List "" labelSet, .GetVlan, .RemoveLocalArea netconf.Vlan l3.CIDR], w2⟩

/-! ## Removing records one at a time -/

/-- A label selector matches a record when every selected key carries the selected value. -/
def selectorMatches (sel : LabelSet) (r : NetworkAttachmentDefinition) : Bool :=
  sel.all fun kv => (r.Labels.getD []).lookup kv.1 == some kv.2

/-- The label index over the records that are live: `List` of the record cache, over every
namespace. -/
def labelIndex (live : List NetworkAttachmentDefinition) :
    String → LabelSet → Except GoError (List NetworkAttachmentDefinition) :=
  fun _ sel => .ok (live.filter (selectorMatches sel))

/-- Removes the records of a list one at a time, in list order, running `OnRemove` for
each removal against the label index of the records live at that moment. The flag paired
with a record tells whether the record being removed is itself still visible in the index
while its `OnRemove` runs. Returns the outcome of every run, in order. -/
def removeAll {σ V M : Type} (d : Deps σ V M) (mgmt : M) :
    List (NetworkAttachmentDefinition × Bool) → σ → List (Outcome σ)
  | [], _ => []
  | (r, visible) :: rest, w =>
    let live := if visible then r :: rest.map Prod.fst else rest.map Prod.fst
    let o := OnRemove d ⟨labelIndex live, mgmt⟩ r.Name (some r) w
    o :: removeAll d mgmt rest o.world

/-! ## The kernel behind netlink and sysctl

bridge.go drives the kernel through `netlink` and `sysctl`, libraries outside the
repository. Their effect is modelled by a small deterministic kernel state: a list of links
with their IPv4 addresses and routes, the sysctl table, and the interfaces that have an
ip-forward rule. Only the IPv4 family is kept, since bridge.go lists addresses and routes
with `netlink.FAMILY_V4` only. A link argument is resolved by its name (netlink resolves it
by index, looking the name up when the index is zero). A call that takes a link receives a
pointer, and netlink writes the index it looked up into a link whose index is zero
(`ensureIndex`); such a call therefore returns the link as it leaves it. Routes the kernel
derives from addresses are not modelled: no call of bridge.go names a route. A call fails
only for a reason the state holds (a missing link, a name taken, a missing sysctl key). -/

namespace netlink

/-- `netlink.LinkOperState`. -/
inductive LinkOperState where
  | OperUnknown
  | OperNotPresent
  | OperDown
  | OperLowerLayerDown
  | OperTesting
  | OperDormant
  | OperUp
  deriving DecidableEq, Repr

/-- The fields of `netlink.Addr` used here: the address with its mask, and the label. -/
structure Addr where
  IPNet : String
  Label : String
  deriving DecidableEq, Repr

/-- The fields of `netlink.Route` used here. -/
structure Route where
  Dst : String
  Gw : String
  deriving DecidableEq, Repr

/-- The fields of `netlink.LinkAttrs` used here; `FlagUp` is `Flags & net.FlagUp != 0`. -/
structure LinkAttrs where
  Index : Nat
  Name : String
  FlagUp : Bool
  Promisc : Nat
  OperState : LinkOperState
  deriving DecidableEq, Repr

/-- `netlink.Bridge`; `VlanFiltering` is a `*bool`. -/
structure Bridge where
  LinkAttrs : LinkAttrs
  VlanFiltering : Option Bool
  deriving DecidableEq, Repr

/-- `netlink.Link`: a `*netlink.Bridge`, or a link of another type. -/
inductive Link where
  | Bridge (b : Bridge)
  | Other (type : String) (attrs : LinkAttrs)
  deriving DecidableEq, Repr

end netlink

/-- A link as the kernel holds it. -/
structure KLink where
  index : Nat
  name : String
  kind : String
  up : Bool
  carrier : Bool
  promiscuity : Nat
  vlanFiltering : Bool
  addrs : List netlink.Addr
  routes : List netlink.Route
  deriving DecidableEq, Repr

/-- The kernel state. -/
structure Kernel where
  sysctl : List (String × Int)
  links : List KLink
  iptForward : List String
  deriving DecidableEq, Repr

/-- `syscall.ENOENT`. -/
def ENOENT : GoError := GoError.Errno 2

/-- The link of a given name. -/
def findLink (name : String) : List KLink → Option KLink
  | [] => none
  | l :: ls => if l.name = name then some l else findLink name ls

/-- Applies `f` to the link of a given name. -/
def modifyLink (name : String) (f : KLink → KLink) : List KLink → List KLink
  | [] => []
  | l :: ls => if l.name = name then f l :: ls else l :: modifyLink name f ls

/-- The operational state the kernel reports: up exactly when the link is administratively
up and has carrier. -/
def KLink.operState (l : KLink) : netlink.LinkOperState :=
  if l.up && l.carrier then .OperUp else .OperDown

/-- The attributes netlink reads back for a link. -/
def KLink.attrs (l : KLink) : netlink.LinkAttrs :=
  { Index := l.index, Name := l.name, FlagUp := l.up, Promisc := l.promiscuity,
    OperState := l.operState }

/-- The `netlink.Link` value netlink builds for a link: a bridge for kind `bridge`. -/
def KLink.toLink (l : KLink) : netlink.Link :=
  if l.kind = "bridge" then .Bridge ⟨l.attrs, some l.vlanFiltering⟩ else .Other l.kind l.attrs

/-- The least index above every index in use. -/
def freshIndex (ls : List KLink) : Nat :=
  ls.foldl (fun m l => max m l.index) 0 + 1

namespace sysctl

/-- `sysctl.Interface.GetSysctl`. -/
def GetSysctl (key : String) (k : Kernel) : Except GoError Int :=
  match k.sysctl.lookup key with
  | some v => .ok v
  | none => .error ENOENT

/-- `sysctl.Interface.SetSysctl`. -/
def SetSysctl (key : String) (value : Int) (k : Kernel) : Option GoError × Kernel :=
  match k.sysctl.lookup key with
  | some _ =>
    let table := k.sysctl.map fun kv => if kv.1 = key then (key, value) else kv
    (none, { k with sysctl := table })
  | none => (some ENOENT, k)

end sysctl

namespace netlink

/-- The `ensureIndex` of netlink, run by the calls that take a link before they use its
index: a link whose index is zero receives the index of the kernel link of its name, when
there is one. -/
def ensureIndex (b : Bridge) (k : Kernel) : Bridge :=
  if b.LinkAttrs.Index = 0 then
    match findLink b.LinkAttrs.Name k.links with
    | some l => { b with LinkAttrs := { b.LinkAttrs with Index := l.index } }
    | none => b
  else b

/-- `netlink.LinkAdd` for a bridge: `EEXIST` when the name is taken; otherwise the bridge is
created, down, with the requested VLAN filtering, and the argument receives its index. -/
def LinkAdd (b : Bridge) (k : Kernel) : Option GoError × Bridge × Kernel :=
  match findLink b.LinkAttrs.Name k.links with
  | some _ => (some EEXIST, b, k)
  | none =>
    let l : KLink :=
      { index := freshIndex k.links, name := b.LinkAttrs.Name, kind := "bridge",
        up := b.LinkAttrs.FlagUp, carrier := false, promiscuity := 0,
        vlanFiltering := b.VlanFiltering.getD false, addrs := [], routes := [] }
    (none, { b with LinkAttrs := { b.LinkAttrs with Index := l.index } },
      { k with links := k.links ++ [l] })

/-- `netlink.LinkByName`. -/
def LinkByName (name : String) (k : Kernel) : Except GoError Link :=
  match findLink name k.links with
  | some l => .ok l.toLink
  | none => .error (.LinkNotFoundError ("Link " ++ name ++ " not found"))

/-- `netlink.SetPromiscOn`: raises the promiscuity of a link that is not promiscuous. -/
def SetPromiscOn (b : Bridge) (k : Kernel) : Option GoError × Bridge × Kernel :=
  match findLink b.LinkAttrs.Name k.links with
  | some _ =>
    let links := modifyLink b.LinkAttrs.Name
      (fun l => if l.promiscuity = 0 then { l with promiscuity := 1 } else l) k.links
    (none, ensureIndex b k, { k with links := links })
  | none => (some ENODEV, ensureIndex b k, k)

/-- `netlink.LinkSetUp`. -/
def LinkSetUp (b : Bridge) (k : Kernel) : Option GoError × Bridge × Kernel :=
  match findLink b.LinkAttrs.Name k.links with
  | some _ =>
    let links := modifyLink b.LinkAttrs.Name (fun l => { l with up := true }) k.links
    (none, ensureIndex b k, { k with links := links })
  | none => (some ENODEV, ensureIndex b k, k)

/-- `netlink.AddrList(link, netlink.FAMILY_V4)`. -/
def AddrList (b : Bridge) (k : Kernel) : Except GoError (List Addr) × Bridge :=
  match findLink b.LinkAttrs.Name k.links with
  | some l => (.ok l.addrs, ensureIndex b k)
  | none => (.error ENODEV, ensureIndex b k)

/-- `netlink.RouteList(link, netlink.FAMILY_V4)`; it reads the index of the link as it
is. -/
def RouteList (b : Bridge) (k : Kernel) : Except GoError (List Route) :=
  match findLink b.LinkAttrs.Name k.links with
  | some l => .ok l.routes
  | none => .error ENODEV

/-- `netlink.AddrAdd`: `EEXIST` when the link already holds the address, whatever its
label. -/
def AddrAdd (b : Bridge) (addr : Addr) (k : Kernel) : Option GoError × Bridge × Kernel :=
  match findLink b.LinkAttrs.Name k.links with
  | some l =>
    if addr.IPNet ∈ l.addrs.map Addr.IPNet then (some EEXIST, ensureIndex b k, k)
    else
      let links := modifyLink b.LinkAttrs.Name
        (fun l => { l with addrs := l.addrs ++ [addr] }) k.links
      (none, ensureIndex b k, { k with links := links })
  | none => (some ENODEV, ensureIndex b k, k)

/-- Removes the first address of the given value-with-mask. -/
def eraseAddr (ipnet : String) : List Addr → List Addr
  | [] => []
  | a :: as => if a.IPNet = ipnet then as else a :: eraseAddr ipnet as

/-- `netlink.AddrDel`: `EADDRNOTAVAIL` when the link does not hold the address. -/
def AddrDel (b : Bridge) (addr : Addr) (k : Kernel) : Option GoError × Bridge × Kernel :=
  match findLink b.LinkAttrs.Name k.links with
  | some l =>
    if addr.IPNet ∈ l.addrs.map Addr.IPNet then
      let links := modifyLink b.LinkAttrs.Name
        (fun l => { l with addrs := eraseAddr addr.IPNet l.addrs }) k.links
      (none, ensureIndex b k, { k with links := links })
    else (some EADDRNOTAVAIL, ensureIndex b k, k)
  | none => (some ENODEV, ensureIndex b k, k)

end netlink

/-! ## The bridge manager (bridge.go) -/

/-- The constant `bridgeNFCallIptables`. -/
def bridgeNFCallIptables : String := "net/bridge/bridge-nf-call-iptables"

/-- The type `Bridge`. -/
structure Bridge where
  bridge : netlink.Bridge
  addr : List netlink.Addr
  routes : List netlink.Route
  deriving DecidableEq, Repr

/-- Modelled from the spec: the `IFace` interface is declared outside the sources at hand;
of the capability set the spec lists, the name and the current address list are kept. -/
structure IFace where
  Name : String
  Addr : List netlink.Addr
  deriving DecidableEq, Repr

/-- Modelled from the spec: the type `Link` of package iface, built by `ToLink`, is
declared outside the sources at hand; it carries the link and the cached lists. -/
structure IfaceLink where
  link : netlink.Bridge
  addr : List netlink.Addr
  routes : List netlink.Route
  deriving DecidableEq, Repr

/-- Modelled from the spec: `(*Link).EnsureIptForward` is outside the sources at hand; the
spec has it ensure that IP-forwarding is enabled on the link, so it records a forward rule
for the link's name unless one is there. -/
def IfaceLink.EnsureIptForward (l : IfaceLink) (k : Kernel) : Option GoError × Kernel :=
  if l.link.LinkAttrs.Name ∈ k.iptForward then (none, k)
  else (none, { k with iptForward := k.iptForward ++ [l.link.LinkAttrs.Name] })

/-- `NewBridge` (bridge.go 20-28). -/
def NewBridge (name : String) : Bridge :=
  { bridge :=
      { LinkAttrs :=
          { Index := 0, Name := name, FlagUp := false, Promisc := 0,
            OperState := .OperUnknown },
        VlanFiltering := some true },
    addr := [], routes := [] }

/-- `Bridge.ToLink` (bridge.go 112-118). -/
def Bridge.ToLink (br : Bridge) : IfaceLink :=
  { link := br.bridge, addr := br.addr, routes := br.routes }

/-- `Bridge.Name` (bridge.go 120-122). -/
def Bridge.Name (br : Bridge) : String := br.bridge.LinkAttrs.Name

/-- `Bridge.Addr` (bridge.go 145-147). -/
def Bridge.Addr (br : Bridge) : List netlink.Addr := br.addr

/-- `Bridge.Routes` (bridge.go 149-151). -/
def Bridge.Routes (br : Bridge) : List netlink.Route := br.routes

/-- `fetchByName` (bridge.go 171-183). -/
def fetchByName (name : String) (k : Kernel) : Except GoError netlink.Bridge :=
  match netlink.LinkByName name k with
  | .error err => .error (.wrap ("could not lookup link " ++ name) err)
  | .ok (.Bridge br) => .ok br
  | .ok (.Other _ _) => .error (.other (name ++ " already exists but is not a bridge"))

/-- `Bridge.Fetch` (bridge.go 153-169); it reads the kernel and rewrites the projection. -/
def Bridge.Fetch (br : Bridge) (k : Kernel) : Option GoError × Bridge :=
  match fetchByName br.Name k with
  | .error err => (some (.wrap ("fetch bridge " ++ br.Name ++ " failed") err), br)
  | .ok tempBr =>
    match netlink.AddrList tempBr k with
    | (.error err, b1) =>
      (some (.wrap ("refresh addresses of link " ++ b1.LinkAttrs.Name ++ " failed") err),
        { br with bridge := b1, addr := [] })
    | (.ok addr, b1) =>
      let br2 : Bridge := { br with bridge := b1, addr := addr }
      match netlink.RouteList br2.bridge k with
      | .error err =>
        (some (.wrap ("refresh routes of link " ++ br2.Name ++ " failed") err),
          { br2 with routes := [] })
      | .ok routes => (none, { br2 with routes := routes })

/-- `disableBridgeNF` (bridge.go 69-82). -/
def disableBridgeNF (k : Kernel) : Option GoError × Kernel :=
  match sysctl.GetSysctl bridgeNFCallIptables k with
  | .error err => (some err, k)
  | .ok isForward =>
    if isForward ≠ 0 then
      match sysctl.SetSysctl bridgeNFCallIptables 0 k with
      | (some err, k1) => (some err, k1)
      | (none, k1) => (none, k1)
    else (none, k)

/-- `Bridge.Ensure` (bridge.go 32-67). -/
def Bridge.Ensure (br : Bridge) (k : Kernel) : Option GoError × Bridge × Kernel :=
  match disableBridgeNF k with
  | (some err, k1) =>
    (some (.wrap "disable net.bridge.bridge-nf-call-iptables failed" err), br, k1)
  | (none, k1) =>
    match netlink.LinkAdd br.bridge k1 with
    | (addErr, b1, k2) =>
      let br1 : Bridge := { br with bridge := b1 }
      if addErr ≠ none ∧ addErr ≠ some EEXIST then
        (addErr.map (.wrap "add iface failed"), br1, k2)
      else
        match fetchByName br1.bridge.LinkAttrs.Name k2 with
        | .error err => (some err, br1, k2)
        | .ok tempBr =>
          match (if tempBr.LinkAttrs.Promisc ≠ 1 then netlink.SetPromiscOn br1.bridge k2
              else (none, br1.bridge, k2)) with
          | (some err, b2, k3) =>
            (some (.wrap "set promiscuous mode failed" err), { br1 with bridge := b2 }, k3)
          | (none, b2, k3) =>
            let br2 : Bridge := { br1 with bridge := b2 }
            match br2.ToLink.EnsureIptForward k3 with
            | (some err, k4) => (some err, br2, k4)
            | (none, k4) =>
              match (if tempBr.LinkAttrs.OperState ≠ .OperUp then netlink.LinkSetUp br2.bridge k4
                  else (none, br2.bridge, k4)) with
              | (some err, b3, k5) => (some err, { br2 with bridge := b3 }, k5)
              | (none, b3, k5) =>
                let br3 : Bridge := { br2 with bridge := b3 }
                -- TODO ensure vlan filtering
                ((br3.Fetch k5).1, (br3.Fetch k5).2, k5)

/-- The loop of `Bridge.SyncIPv4Addr` over the addresses still to add; `br.bridge` is the
link every `AddrAdd` receives and may write its index into. -/
def Bridge.syncLoop :
    Bridge → List netlink.Addr → Kernel → Option GoError × Bridge × Kernel
  | br, [], k => (none, br, k)
  | br, addr :: rest, k =>
    let addr1 : netlink.Addr := { addr with Label := br.bridge.LinkAttrs.Name }
    match netlink.AddrAdd br.bridge addr1 k with
    | (some err, b1, k1) =>
      if err ≠ EEXIST then
        (some (.wrap ("could not add address, link: " ++ b1.LinkAttrs.Name) err),
          { br with bridge := b1 }, k1)
      else Bridge.syncLoop { br with bridge := b1 } rest k1
    | (none, b1, k1) => Bridge.syncLoop { br with bridge := b1 } rest k1

/-- `Bridge.SyncIPv4Addr` (bridge.go 85-95); `br.addr` and `br.routes` are not assigned. -/
def Bridge.SyncIPv4Addr (br : Bridge) (slave : IFace) (k : Kernel) :
    Option GoError × Bridge × Kernel :=
  br.syncLoop slave.Addr k

/-- The loop of `Bridge.ClearAddr` over the addresses still to delete. -/
def Bridge.clearLoop :
    Bridge → List netlink.Addr → Kernel → Option GoError × Bridge × Kernel
  | br, [], k => (none, br, k)
  | br, addr :: rest, k =>
    match netlink.AddrDel br.bridge addr k with
    | (some err, b1, k1) =>
      (some (.wrap ("delete address of " ++ b1.LinkAttrs.Name ++ " failed") err),
        { br with bridge := b1 }, k1)
    | (none, b1, k1) => Bridge.clearLoop { br with bridge := b1 } rest k1

/-- `Bridge.ClearAddr` (bridge.go 97-110). -/
def Bridge.ClearAddr (br : Bridge) (k : Kernel) : Option GoError × Bridge × Kernel :=
  match br.Fetch k with
  | (some err, br1) => (some err, br1, k)
  | (none, br1) => br1.clearLoop br1.addr k

/-! ## Kernels for examples -/

/-- A node with the bridge-netfilter hook on and no link. -/
def emptyKernel : Kernel :=
  { sysctl := [(bridgeNFCallIptables, 1)], links := [], iptForward := [] }

/-- A bridge as an administrator may have left it: down, VLAN filtering disabled. -/
def plainBridge (name : String) (addrs : List netlink.Addr) : KLink :=
  { index := 7, name := name, kind := "bridge", up := false, carrier := false,
    promiscuity := 0, vlanFiltering := false, addrs := addrs, routes := [] }

/-- An enslaved uplink holding the address `10.0.0.1/24`. -/
def slaveEth0 : IFace := { Name := "eth0", Addr := [⟨"10.0.0.1/24", "eth0"⟩] }

/-- A node where the bridge exists already, with the given addresses. -/
def bridgeKernel (name : String) (addrs : List netlink.Addr) : Kernel :=
  { sysctl := [(bridgeNFCallIptables, 1)], links := [plainBridge name addrs],
    iptForward := [] }

/-! ## A concrete node for examples -/

/-- Node state of the examples: the VLAN local areas present on the node. -/
abbrev LocalAreas := List (Int × String)

/-- Config payload declaring VLAN 100. -/
def cfg100 : String := "\x7b\"vlan\":100\x7d"

/-- Config payload declaring VLAN 200. -/
def cfg200 : String := "\x7b\"vlan\":200\x7d"

/-- Layer-3 annotation value carrying the CIDR `10.0.0.0/24`. -/
def ann24 : String := "\x7b\"cidr\":\"10.0.0.0/24\"\x7d"

/-- Collaborators of the examples. The parsers accept the payloads above and reject every
other text; the management network is a flag telling whether the uplink is enslaved;
local areas are kept as a list. -/
def exampleDeps : Deps LocalAreas Unit Bool where
  GroupName := "network.harvesterhci.io"
  KeyNetworkConf := "network.harvesterhci.io/route"
  Unmarshal := fun s =>
    if s = cfg100 then .ok ⟨100⟩
    else if s = cfg200 then .ok ⟨200⟩
    else .error (.other "invalid character")
  NewLayer3NetworkConf := fun s =>
    if s = ann24 then .ok ⟨"10.0.0.0/24"⟩ else .error (.other "unexpected end of JSON input")
  GetVlan := fun ready w =>
    if ready then (.ok (), w) else (.error (.LinkNotFoundError "Link harvester-br0 not found"), w)
  AddLocalArea := fun _ v c w => (none, if (v, c) ∈ w then w else (v, c) :: w)
  RemoveLocalArea := fun _ v c w => (none, w.erase (v, c))

/-- An attachment record of the examples. -/
def exampleNad (name config : String) (labelVlan : String) (annotations : StringMap)
    (deleted : Option Nat) : NetworkAttachmentDefinition where
  Name := name
  DeletionTimestamp := deleted
  Labels := some [("network.harvesterhci.io/vlan-id", labelVlan)]
  Annotations := annotations
  Config := config

/-- A record declaring VLAN 100 whose layer-3 annotation is not JSON. -/
def badAnnotationNad : NetworkAttachmentDefinition :=
  exampleNad "a" cfg100 "100" (some [("network.harvesterhci.io/route", "10.0.0.0/24")]) none

/-- Record `a` of the shared-VLAN scenario: VLAN 200 with CIDR `10.0.0.0/24`. -/
def nadA200 : NetworkAttachmentDefinition :=
  exampleNad "a" cfg200 "200" (some [("network.harvesterhci.io/route", ann24)]) (some 1)

/-- Record `b` of the shared-VLAN scenario: VLAN 200 with CIDR `10.0.0.0/24`. -/
def nadB200 : NetworkAttachmentDefinition :=
  exampleNad "b" cfg200 "200" (some [("network.harvesterhci.io/route", ann24)]) (some 2)

end Harvester

namespace Harvester

/-! ## Theorems: attachment handler -/

section Handlers

variable {σ V M : Type}

/-- C5. Malformed-config rejection: for a present record whose non-empty config does not
decode, `OnChange` (record not marked for deletion) returns the parse error having made no
collaborator call, so no resolution and no `AddLocalArea`; `OnRemove` returns the parse
error having made no call either, so before any label lookup, resolution or
`RemoveLocalArea`. The node state is untouched in both. -/
theorem malformed_config_rejected (d : Deps σ V M) (h : Handler M) (key : String)
    (nad : NetworkAttachmentDefinition) (w : σ) (perr : GoError)
    (hcfg : nad.Config ≠ "") (hbad : d.Unmarshal nad.Config = .error perr) :
    (nad.DeletionTimestamp = none →
      OnChange d h key (some nad) w = ⟨none, some perr, [], w⟩) ∧
    OnRemove d h key (some nad) w = ⟨none, some perr, [], w⟩ := by
  constructor
  · intro hdel
    simp [OnChange, hdel, hcfg, hbad]
  · simp [OnRemove, hcfg, hbad]

/-- Instance of C5: a record whose config is the text `not json`. -/
theorem malformed_config_rejected_witness :
    (OnChange exampleDeps ⟨labelIndex [], true⟩ "default/a"
        (some (exampleNad "a" "not json" "100" none none)) [] =
      ⟨none, some (.other "invalid character"), [], []⟩) ∧
    (OnRemove exampleDeps ⟨labelIndex [], true⟩ "default/a"
        (some (exampleNad "a" "not json" "100" none none)) [] =
      ⟨none, some (.other "invalid character"), [], []⟩) :=
  have h := malformed_config_rejected exampleDeps ⟨labelIndex [], true⟩ "default/a"
    (exampleNad "a" "not json" "100" none none) [] (.other "invalid character")
    (by decide) rfl
  ⟨h.1 rfl, h.2⟩

/-- A missing key indexes to the empty text, like the nil map does. -/
theorem StringMap.index_missing (kvs : List (String × String)) (k : String)
    (hk : kvs.lookup k = none) : StringMap.index (some kvs) k = "" := by
  simp [StringMap.index, hk]

/-- C6, as amended. `OnChange` happy path: for a present record, not marked for deletion,
whose non-empty config parses to VLAN id `vid`, for which `GetVlan` succeeds and whose
layer-3 annotation, when not empty, parses; with `l3` the zero value when the annotation
map is nil, the key is missing or its value is empty, and the parsed annotation otherwise:
the calls are `GetVlan` followed by exactly one `AddLocalArea vid l3.CIDR`, the returned
error is the one of `AddLocalArea`, the record is returned exactly when that error is nil,
and `RemoveLocalArea` is never called. -/
theorem onChange_happy_path (d : Deps σ V M) (h : Handler M) (key : String)
    (nad : NetworkAttachmentDefinition) (w w1 : σ) (vid : Int) (v : V)
    (l3 : Layer3NetworkConf)
    (hdel : nad.DeletionTimestamp = none) (hcfg : nad.Config ≠ "")
    (hparse : d.Unmarshal nad.Config = .ok ⟨vid⟩)
    (hvlan : d.GetVlan h.mgmtNetwork w = (.ok v, w1))
    (hann : ((nad.Annotations = none ∨ nad.Annotations.index d.KeyNetworkConf = "") ∧
        l3 = ⟨""⟩) ∨
      (nad.Annotations ≠ none ∧ nad.Annotations.index d.KeyNetworkConf ≠ "" ∧
        d.NewLayer3NetworkConf (nad.Annotations.index d.KeyNetworkConf) = .ok l3)) :
    (OnChange d h key (some nad) w).calls = [.GetVlan, .AddLocalArea vid l3.CIDR] ∧
    (OnChange d h key (some nad) w).err = (d.AddLocalArea v vid l3.CIDR w1).1 ∧
    (OnChange d h key (some nad) w).world = (d.AddLocalArea v vid l3.CIDR w1).2 ∧
    ((d.AddLocalArea v vid l3.CIDR w1).1 = none →
      (OnChange d h key (some nad) w).ret = some nad) ∧
    ((d.AddLocalArea v vid l3.CIDR w1).1 ≠ none →
      (OnChange d h key (some nad) w).ret = none) ∧
    (∀ x c, Call.RemoveLocalArea x c ∉ (OnChange d h key (some nad) w).calls) := by
  have hl3 : layer3NetworkConf d nad = .ok l3 := by
    unfold layer3NetworkConf
    rcases hann with ⟨hnone | hempty, rfl⟩ | ⟨hsome, hne, hok⟩
    · simp [hnone]
    · simp [hempty]
    · simp [hsome, hne, hok]
  rcases hadd : d.AddLocalArea v vid l3.CIDR w1 with ⟨_ | e, w2⟩ <;>
    simp [OnChange, hdel, hcfg, hparse, hvlan, hl3, hadd]

/-- C6, counterexample. The record is present, not marked for deletion, its config parses
to VLAN 100 and `GetVlan` succeeds, but its layer-3 annotation is not empty and does not
parse: `OnChange` calls `GetVlan` only, never `AddLocalArea`, and returns the parse error. -/
theorem onChange_malformed_annotation_no_add :
    badAnnotationNad.DeletionTimestamp = none ∧
    badAnnotationNad.Config ≠ "" ∧
    exampleDeps.Unmarshal badAnnotationNad.Config = .ok ⟨100⟩ ∧
    exampleDeps.GetVlan true [] = (.ok (), []) ∧
    (OnChange exampleDeps ⟨labelIndex [badAnnotationNad], true⟩ "default/a"
      (some badAnnotationNad) []).calls = [.GetVlan] ∧
    (OnChange exampleDeps ⟨labelIndex [badAnnotationNad], true⟩ "default/a"
      (some badAnnotationNad) []).err = some (.other "unexpected end of JSON input") ∧
    (OnChange exampleDeps ⟨labelIndex [badAnnotationNad], true⟩ "default/a"
      (some badAnnotationNad) []).ret = none :=
  ⟨rfl, by decide, rfl, rfl, by decide, by decide, by decide⟩

/-- Instance of C6 as amended: VLAN 100 with no annotation on a node whose uplink is
ready. -/
theorem onChange_happy_path_witness :
    (OnChange exampleDeps ⟨labelIndex [], true⟩ "default/a"
        (some (exampleNad "a" cfg100 "100" none none)) []).calls =
      [.GetVlan, .AddLocalArea 100 ""] ∧
    (OnChange exampleDeps ⟨labelIndex [], true⟩ "default/a"
        (some (exampleNad "a" cfg100 "100" none none)) []).err = none ∧
    (OnChange exampleDeps ⟨labelIndex [], true⟩ "default/a"
        (some (exampleNad "a" cfg100 "100" none none)) []).world = [(100, "")] ∧
    (OnChange exampleDeps ⟨labelIndex [], true⟩ "default/a"
        (some (exampleNad "a" cfg100 "100" none none)) []).ret =
      some (exampleNad "a" cfg100 "100" none none) :=
  have h := onChange_happy_path exampleDeps ⟨labelIndex [], true⟩ "default/a"
    (exampleNad "a" cfg100 "100" none none) [] [] 100 () ⟨""⟩ rfl (by decide) rfl rfl
    (Or.inl ⟨Or.inl rfl, rfl⟩)
  ⟨h.1, h.2.1, h.2.2.1, h.2.2.2.1 rfl⟩

/-- C2. Tear-down decision rule of `OnRemove`: for a present record whose non-empty config
parses to VLAN id `vid`, the first call is the cache query for the records whose vlan-id
label is the decimal text of `vid`; when the query returns more than one record the run
ends there with no error (neither `GetVlan` nor `RemoveLocalArea` is called, the node state
is untouched); when it returns at most one record, resolution succeeds and the layer-3
annotation is absent or empty (then `l3` is the zero value) or parses to `l3`, the calls
are the query, `GetVlan` and exactly one `RemoveLocalArea vid l3.CIDR`, and the returned
error is the one of `RemoveLocalArea`, the record being returned exactly when there is
none. -/
theorem onRemove_decision_rule (d : Deps σ V M) (h : Handler M) (key : String)
    (nad : NetworkAttachmentDefinition) (w : σ) (vid : Int)
    (hcfg : nad.Config ≠ "") (hparse : d.Unmarshal nad.Config = .ok ⟨vid⟩) :
    (OnRemove d h key (some nad) w).calls.head? =
      some (.List "" [(d.GroupName ++ "/vlan-id", Itoa vid)]) ∧
    (∀ nads, h.nadCache "" [(d.GroupName ++ "/vlan-id", Itoa vid)] = .ok nads →
      nads.length > 1 →
      (OnRemove d h key (some nad) w).err = none ∧
      (OnRemove d h key (some nad) w).calls =
        [.List "" [(d.GroupName ++ "/vlan-id", Itoa vid)]] ∧
      (OnRemove d h key (some nad) w).world = w) ∧
    (∀ nads v w1 l3, h.nadCache "" [(d.GroupName ++ "/vlan-id", Itoa vid)] = .ok nads →
      nads.length ≤ 1 →
      d.GetVlan h.mgmtNetwork w = (.ok v, w1) →
      (((nad.Annotations = none ∨ nad.Annotations.index d.KeyNetworkConf = "") ∧
          l3 = ⟨""⟩) ∨
        (nad.Annotations ≠ none ∧ nad.Annotations.index d.KeyNetworkConf ≠ "" ∧
          d.NewLayer3NetworkConf (nad.Annotations.index d.KeyNetworkConf) = .ok l3)) →
      (OnRemove d h key (some nad) w).calls =
        [.List "" [(d.GroupName ++ "/vlan-id", Itoa vid)], .GetVlan,
          .RemoveLocalArea vid l3.CIDR] ∧
      (OnRemove d h key (some nad) w).err = (d.RemoveLocalArea v vid l3.CIDR w1).1 ∧
      (OnRemove d h key (some nad) w).world = (d.RemoveLocalArea v vid l3.CIDR w1).2 ∧
      ((d.RemoveLocalArea v vid l3.CIDR w1).1 = none →
        (OnRemove d h key (some nad) w).ret = some nad) ∧
      ((d.RemoveLocalArea v vid l3.CIDR w1).1 ≠ none →
        (OnRemove d h key (some nad) w).ret = none)) := by
  refine ⟨?_, ?_, ?_⟩
  · simp only [OnRemove, hcfg, hparse, vlanLabelKey, if_false]
    split
    · rfl
    · split
      · rfl
      · split
        · split <;> rfl
        · split
          · rfl
          · split <;> rfl
  · intro nads hl hlen
    simp [OnRemove, hcfg, hparse, vlanLabelKey, hl, hlen]
  · intro nads v w1 l3 hl hlen hv hann
    have hl3 : layer3NetworkConf d nad = .ok l3 := by
      unfold layer3NetworkConf
      rcases hann with ⟨hnone | hempty, rfl⟩ | ⟨hsome, hne, hok⟩
      · simp [hnone]
      · simp [hempty]
      · simp [hsome, hne, hok]
    have hlen' : ¬ nads.length > 1 := by omega
    rcases hrm : d.RemoveLocalArea v vid l3.CIDR w1 with ⟨_ | e, w2⟩ <;>
      simp [OnRemove, hcfg, hparse, vlanLabelKey, hl, hlen', hv, hl3, hrm]

/-- Instance of C2: record `b`, the sole record of VLAN 200, still visible in the index,
annotated with the CIDR `10.0.0.0/24`: the local area removed is that of VLAN 200 with
this CIDR. -/
theorem onRemove_decision_rule_witness :
    (OnRemove exampleDeps ⟨labelIndex [nadB200], true⟩ "default/b" (some nadB200)
        [(200, "10.0.0.0/24")]).calls =
      [.List "" [("network.harvesterhci.io/vlan-id", "200")], .GetVlan,
        .RemoveLocalArea 200 "10.0.0.0/24"] ∧
    (OnRemove exampleDeps ⟨labelIndex [nadB200], true⟩ "default/b" (some nadB200)
        [(200, "10.0.0.0/24")]).err = none ∧
    (OnRemove exampleDeps ⟨labelIndex [nadB200], true⟩ "default/b" (some nadB200)
        [(200, "10.0.0.0/24")]).world = [] ∧
    (OnRemove exampleDeps ⟨labelIndex [nadB200], true⟩ "default/b" (some nadB200)
        [(200, "10.0.0.0/24")]).ret = some nadB200 :=
  have h := (onRemove_decision_rule exampleDeps ⟨labelIndex [nadB200], true⟩ "default/b"
    nadB200 [(200, "10.0.0.0/24")] 200 (by decide) rfl).2.2
    [nadB200] () [(200, "10.0.0.0/24")] ⟨"10.0.0.0/24"⟩ rfl (by decide) rfl
    (Or.inr ⟨by decide, by decide, rfl⟩)
  ⟨h.1, h.2.1, h.2.2.1, h.2.2.2.1 rfl⟩

/-- C3, as amended. For a present record with a non-empty valid config and a non-empty
layer-3 annotation that does not parse (error `aerr`): `OnChange` (record not marked for
deletion) returns `aerr`, with no `AddLocalArea`, whenever resolution succeeds, and returns
the resolution error when that is neither not-found nor not-enslaved; `OnRemove` does the
same, with no `RemoveLocalArea`, whenever the label query returns at most one record. When
resolution fails with not-found or not-enslaved, or when the query of `OnRemove` returns
more than one record, the run ends with no error before the annotation is looked at. -/
theorem malformed_annotation_propagated (d : Deps σ V M) (h : Handler M) (key : String)
    (nad : NetworkAttachmentDefinition) (w : σ) (vid : Int) (aerr : GoError)
    (hcfg : nad.Config ≠ "") (hparse : d.Unmarshal nad.Config = .ok ⟨vid⟩)
    (hsome : nad.Annotations ≠ none)
    (hne : nad.Annotations.index d.KeyNetworkConf ≠ "")
    (hbad : d.NewLayer3NetworkConf (nad.Annotations.index d.KeyNetworkConf) = .error aerr) :
    (nad.DeletionTimestamp = none →
      (∀ v w1, d.GetVlan h.mgmtNetwork w = (.ok v, w1) →
        OnChange d h key (some nad) w = ⟨none, some aerr, [.GetVlan], w1⟩) ∧
      (∀ g w1, d.GetVlan h.mgmtNetwork w = (.error g, w1) →
        asLinkNotFoundError g = false → asSlaveNotFoundError g = false →
        OnChange d h key (some nad) w = ⟨none, some g, [.GetVlan], w1⟩) ∧
      (∀ g w1, d.GetVlan h.mgmtNetwork w = (.error g, w1) →
        asLinkNotFoundError g = true ∨ asSlaveNotFoundError g = true →
        OnChange d h key (some nad) w = ⟨some nad, none, [.GetVlan], w1⟩)) ∧
    (∀ nads, h.nadCache "" [(d.GroupName ++ "/vlan-id", Itoa vid)] = .ok nads →
      (nads.length > 1 →
        OnRemove d h key (some nad) w =
          ⟨none, none, [.List "" [(d.GroupName ++ "/vlan-id", Itoa vid)]], w⟩) ∧
      (nads.length ≤ 1 →
        (∀ v w1, d.GetVlan h.mgmtNetwork w = (.ok v, w1) →
          OnRemove d h key (some nad) w =
            ⟨none, some aerr,
              [.List "" [(d.GroupName ++ "/vlan-id", Itoa vid)], .GetVlan], w1⟩) ∧
        (∀ g w1, d.GetVlan h.mgmtNetwork w = (.error g, w1) →
          asLinkNotFoundError g = false → asSlaveNotFoundError g = false →
          OnRemove d h key (some nad) w =
            ⟨none, some g,
              [.List "" [(d.GroupName ++ "/vlan-id", Itoa vid)], .GetVlan], w1⟩) ∧
        (∀ g w1, d.GetVlan h.mgmtNetwork w = (.error g, w1) →
          asLinkNotFoundError g = true ∨ asSlaveNotFoundError g = true →
          OnRemove d h key (some nad) w =
            ⟨some nad, none,
              [.List "" [(d.GroupName ++ "/vlan-id", Itoa vid)], .GetVlan], w1⟩))) := by
  have hl3 : layer3NetworkConf d nad = .error aerr := by
    simp [layer3NetworkConf, hsome, hne, hbad]
  refine ⟨fun hdel => ⟨?_, ?_, ?_⟩, fun nads hl => ⟨fun hlen => ?_, fun hlen => ⟨?_, ?_, ?_⟩⟩⟩
  · intro v w1 hv
    simp [OnChange, hdel, hcfg, hparse, hv, hl3]
  · intro g w1 hv h1 h2
    simp [OnChange, hdel, hcfg, hparse, hv, h1, h2]
  · intro g w1 hv h12
    rcases h12 with h1 | h2
    · simp [OnChange, hdel, hcfg, hparse, hv, h1]
    · simp [OnChange, hdel, hcfg, hparse, hv, h2]
  · simp [OnRemove, hcfg, hparse, vlanLabelKey, hl, hlen]
  · intro v w1 hv
    have hlen' : ¬ nads.length > 1 := by omega
    simp [OnRemove, hcfg, hparse, vlanLabelKey, hl, hlen', hv, hl3]
  · intro g w1 hv h1 h2
    have hlen' : ¬ nads.length > 1 := by omega
    simp [OnRemove, hcfg, hparse, vlanLabelKey, hl, hlen', hv, h1, h2]
  · intro g w1 hv h12
    have hlen' : ¬ nads.length > 1 := by omega
    rcases h12 with h1 | h2
    · simp [OnRemove, hcfg, hparse, vlanLabelKey, hl, hlen', hv, h1]
    · simp [OnRemove, hcfg, hparse, vlanLabelKey, hl, hlen', hv, h2]

/-- Instance of C3 as amended: VLAN 100 with an annotation that is no JSON, uplink ready,
sole record of its VLAN: both handlers return the parse error. -/
theorem malformed_annotation_propagated_witness :
    OnChange exampleDeps ⟨labelIndex [badAnnotationNad], true⟩ "default/a"
        (some badAnnotationNad) [] =
      ⟨none, some (.other "unexpected end of JSON input"), [.GetVlan], []⟩ ∧
    OnRemove exampleDeps ⟨labelIndex [badAnnotationNad], true⟩ "default/a"
        (some badAnnotationNad) [] =
      ⟨none, some (.other "unexpected end of JSON input"),
        [.List "" [("network.harvesterhci.io/vlan-id", "100")], .GetVlan], []⟩ :=
  have h := malformed_annotation_propagated exampleDeps
    ⟨labelIndex [badAnnotationNad], true⟩ "default/a" badAnnotationNad [] 100
    (.other "unexpected end of JSON input") (by decide) rfl (by decide) (by decide) rfl
  ⟨(h.1 rfl).1 () [] rfl, ((h.2 [badAnnotationNad] rfl).2 (by decide)).1 () [] rfl⟩

/-- C3, counterexample. The record has a valid config and a non-empty annotation that does
not parse. With the uplink not found `OnChange` returns the record and no error; with a
second live record of the same VLAN id `OnRemove` returns no error. -/
theorem malformed_annotation_skipped :
    badAnnotationNad.DeletionTimestamp = none ∧
    badAnnotationNad.Config ≠ "" ∧
    exampleDeps.Unmarshal badAnnotationNad.Config = .ok ⟨100⟩ ∧
    badAnnotationNad.Annotations.index exampleDeps.KeyNetworkConf ≠ "" ∧
    exampleDeps.NewLayer3NetworkConf
        (badAnnotationNad.Annotations.index exampleDeps.KeyNetworkConf) =
      .error (.other "unexpected end of JSON input") ∧
    (OnChange exampleDeps ⟨labelIndex [badAnnotationNad], false⟩ "default/a"
      (some badAnnotationNad) []).err = none ∧
    (OnRemove exampleDeps
      ⟨labelIndex [badAnnotationNad, exampleNad "b" cfg100 "100" none none], true⟩
      "default/a" (some badAnnotationNad) [(100, "")]).err = none :=
  ⟨rfl, by decide, rfl, by decide, rfl, by decide, by decide⟩

/-- C4, as amended. For a present record with a non-empty parseable config whose
resolution fails with error `g`: when `g` is a link-not-found or slave-not-found error,
`OnChange` (record not marked for deletion) returns the record with no error after
`GetVlan` alone, and `OnRemove`, when its label query returns at most one record, returns
the record with no error and no `RemoveLocalArea`; when `g` is any other error, `g` itself
is returned by both. -/
theorem graceful_skip (d : Deps σ V M) (h : Handler M) (key : String)
    (nad : NetworkAttachmentDefinition) (w w1 : σ) (vid : Int) (g : GoError)
    (hcfg : nad.Config ≠ "") (hparse : d.Unmarshal nad.Config = .ok ⟨vid⟩)
    (hvlan : d.GetVlan h.mgmtNetwork w = (.error g, w1)) :
    (asLinkNotFoundError g = true ∨ asSlaveNotFoundError g = true →
      (nad.DeletionTimestamp = none →
        OnChange d h key (some nad) w = ⟨some nad, none, [.GetVlan], w1⟩) ∧
      (∀ nads, h.nadCache "" [(d.GroupName ++ "/vlan-id", Itoa vid)] = .ok nads →
        nads.length ≤ 1 →
        OnRemove d h key (some nad) w =
          ⟨some nad, none,
            [.List "" [(d.GroupName ++ "/vlan-id", Itoa vid)], .GetVlan], w1⟩)) ∧
    (asLinkNotFoundError g = false ∧ asSlaveNotFoundError g = false →
      (nad.DeletionTimestamp = none →
        OnChange d h key (some nad) w = ⟨none, some g, [.GetVlan], w1⟩) ∧
      (∀ nads, h.nadCache "" [(d.GroupName ++ "/vlan-id", Itoa vid)] = .ok nads →
        nads.length ≤ 1 →
        OnRemove d h key (some nad) w =
          ⟨none, some g,
            [.List "" [(d.GroupName ++ "/vlan-id", Itoa vid)], .GetVlan], w1⟩)) := by
  refine ⟨fun h12 => ⟨fun hdel => ?_, fun nads hl hlen => ?_⟩,
    fun h12 => ⟨fun hdel => ?_, fun nads hl hlen => ?_⟩⟩
  · rcases h12 with h1 | h2
    · simp [OnChange, hdel, hcfg, hparse, hvlan, h1]
    · simp [OnChange, hdel, hcfg, hparse, hvlan, h2]
  · have hlen' : ¬ nads.length > 1 := by omega
    rcases h12 with h1 | h2
    · simp [OnRemove, hcfg, hparse, vlanLabelKey, hl, hlen', hvlan, h1]
    · simp [OnRemove, hcfg, hparse, vlanLabelKey, hl, hlen', hvlan, h2]
  · simp [OnChange, hdel, hcfg, hparse, hvlan, h12.1, h12.2]
  · have hlen' : ¬ nads.length > 1 := by omega
    simp [OnRemove, hcfg, hparse, vlanLabelKey, hl, hlen', hvlan, h12.1, h12.2]

/-- Instance of C4 as amended: VLAN 100 on a node whose uplink link is not found. -/
theorem graceful_skip_witness :
    OnChange exampleDeps ⟨labelIndex [exampleNad "a" cfg100 "100" none none], false⟩
        "default/a" (some (exampleNad "a" cfg100 "100" none none)) [] =
      ⟨some (exampleNad "a" cfg100 "100" none none), none, [.GetVlan], []⟩ ∧
    OnRemove exampleDeps ⟨labelIndex [exampleNad "a" cfg100 "100" none none], false⟩
        "default/a" (some (exampleNad "a" cfg100 "100" none none)) [] =
      ⟨some (exampleNad "a" cfg100 "100" none none), none,
        [.List "" [("network.harvesterhci.io/vlan-id", "100")], .GetVlan], []⟩ :=
  have h := (graceful_skip exampleDeps
    ⟨labelIndex [exampleNad "a" cfg100 "100" none none], false⟩ "default/a"
    (exampleNad "a" cfg100 "100" none none) [] [] 100
    (.LinkNotFoundError "Link harvester-br0 not found") (by decide) rfl rfl).1 (Or.inl rfl)
  ⟨h.1 rfl, h.2 [exampleNad "a" cfg100 "100" none none] rfl (by decide)⟩

/-- C4, counterexample. A present record with a non-empty parseable config that is marked
for deletion, on a node whose uplink link is not found: `OnChange` returns no record (and
never calls `GetVlan`), not the record. -/
theorem graceful_skip_deleted_record :
    (exampleNad "a" cfg100 "100" none (some 1)).Config ≠ "" ∧
    exampleDeps.Unmarshal (exampleNad "a" cfg100 "100" none (some 1)).Config = .ok ⟨100⟩ ∧
    exampleDeps.GetVlan false [] =
      (.error (.LinkNotFoundError "Link harvester-br0 not found"), []) ∧
    (OnChange exampleDeps ⟨labelIndex [], false⟩ "default/a"
      (some (exampleNad "a" cfg100 "100" none (some 1))) []).ret = none ∧
    (OnChange exampleDeps ⟨labelIndex [], false⟩ "default/a"
      (some (exampleNad "a" cfg100 "100" none (some 1))) []).ret ≠
      some (exampleNad "a" cfg100 "100" none (some 1)) ∧
    (OnChange exampleDeps ⟨labelIndex [], false⟩ "default/a"
      (some (exampleNad "a" cfg100 "100" none (some 1))) []).calls = [] :=
  ⟨by decide, rfl, rfl, by decide, by decide, by decide⟩

/-- The label index returns every live record when all of them carry the selected label. -/
theorem labelIndex_all (live : List NetworkAttachmentDefinition) (k v ns : String)
    (hall : ∀ r ∈ live, (r.Labels.getD []).lookup k = some v) :
    labelIndex live ns [(k, v)] = .ok live := by
  unfold labelIndex
  congr 1
  apply List.filter_eq_self.mpr
  intro r hr
  simp [selectorMatches, hall r hr]

/-- C1, as amended. `rs` are one or more records that all carry VLAN id `vid` in a
non-empty parseable config and in their vlan-id label, with a parseable annotation, on a
node where resolution succeeds. When they are removed one at a time, each still visible in
the label index while its own `OnRemove` runs, every removal but the last makes the label
query only (no `GetVlan`, no `RemoveLocalArea`), returns no error and leaves the node state
as it was, and the last removal calls `RemoveLocalArea` for `vid` once. -/
theorem removal_sequence_refcount (d : Deps σ V M) (mgmt : M)
    (rs : List NetworkAttachmentDefinition) (w : σ) (vid : Int)
    (hrec : ∀ r ∈ rs, r.Config ≠ "" ∧ d.Unmarshal r.Config = .ok ⟨vid⟩ ∧
      (r.Labels.getD []).lookup (d.GroupName ++ "/vlan-id") = some (Itoa vid) ∧
      ∃ l3, layer3NetworkConf d r = .ok l3)
    (hres : ∀ w0, ∃ v, (d.GetVlan mgmt w0).1 = .ok v) :
    (removeAll d mgmt (rs.map fun r => (r, true)) w).length = rs.length ∧
    ∀ i o, (removeAll d mgmt (rs.map fun r => (r, true)) w)[i]? = some o →
      (i + 1 < rs.length →
        o.calls = [.List "" [(d.GroupName ++ "/vlan-id", Itoa vid)]] ∧
        o.err = none ∧ o.world = w) ∧
      (i + 1 = rs.length → ∃ cidr,
        o.calls = [.List "" [(d.GroupName ++ "/vlan-id", Itoa vid)], .GetVlan,
          .RemoveLocalArea vid cidr]) := by
  induction rs generalizing w with
  | nil => simp [removeAll]
  | cons r rest ih =>
    obtain ⟨hcfg, hparse, -, l3, hl3⟩ := hrec r (List.mem_cons_self r rest)
    have hlabels : ∀ x ∈ r :: rest,
        (x.Labels.getD []).lookup (d.GroupName ++ "/vlan-id") = some (Itoa vid) :=
      fun x hx => (hrec x hx).2.2.1
    have hidx := labelIndex_all (r :: rest) (d.GroupName ++ "/vlan-id") (Itoa vid) "" hlabels
    have hrest := fun w0 => ih w0 (fun x hx => hrec x (List.mem_cons_of_mem r hx))
    have hmap : (List.map Prod.fst (List.map (fun r => (r, true)) rest)) = rest := by
      simp [List.map_map, Function.comp_def]
    cases rest with
    | nil =>
      refine ⟨by simp [removeAll], ?_⟩
      intro i o hio
      obtain ⟨v, hv⟩ := hres w
      rcases hg : d.GetVlan mgmt w with ⟨res, w1⟩
      rw [hg] at hv
      simp only at hv
      subst hv
      cases i with
      | zero =>
        simp only [List.map_cons, List.map_nil, removeAll, if_true, List.getElem?_cons_zero,
          Option.some.injEq] at hio
        subst hio
        refine ⟨by simp, fun _ => ⟨l3.CIDR, ?_⟩⟩
        rcases hrm : d.RemoveLocalArea v vid l3.CIDR w1 with ⟨_ | e, w2⟩ <;>
          simp [OnRemove, hcfg, hparse, vlanLabelKey, hidx, hg, hl3, hrm]
      | succ j => simp [removeAll] at hio
    | cons r2 rest2 =>
      have hstep : OnRemove d ⟨labelIndex (r :: r2 :: rest2), mgmt⟩ r.Name (some r) w =
          ⟨none, none, [.List "" [(d.GroupName ++ "/vlan-id", Itoa vid)]], w⟩ := by
        simp [OnRemove, hcfg, hparse, vlanLabelKey, hidx]
      have hunf : removeAll d mgmt (List.map (fun r => (r, true)) (r :: r2 :: rest2)) w =
          OnRemove d ⟨labelIndex (r :: r2 :: rest2), mgmt⟩ r.Name (some r) w ::
            removeAll d mgmt (List.map (fun r => (r, true)) (r2 :: rest2)) w := by
        conv_lhs => rw [List.map_cons, removeAll]
        simp only [if_true, hmap, hstep]
      rw [hunf]
      refine ⟨by rw [List.length_cons, (hrest w).1]; rfl, ?_⟩
      intro i o hio
      cases i with
      | zero =>
        simp only [List.getElem?_cons_zero, Option.some.injEq] at hio
        subst hio
        rw [hstep]
        exact ⟨fun _ => ⟨rfl, rfl, rfl⟩, fun h => by simp at h⟩
      | succ j =>
        simp only [List.getElem?_cons_succ] at hio
        have hj := (hrest w).2 j o hio
        refine ⟨fun hlt => hj.1 (by simpa using hlt), fun heq => hj.2 (by simpa using heq)⟩

/-- Instance of C1 as amended: records `a` and `b` both declare VLAN 200 with the CIDR
`10.0.0.0/24`; removing `a` while `b` exists only queries the index, removing `b`
afterwards removes the local area. -/
theorem removal_sequence_refcount_witness :
    (removeAll exampleDeps true [(nadA200, true), (nadB200, true)]
      [(200, "10.0.0.0/24")]).length = 2 ∧
    ∀ i o, (removeAll exampleDeps true [(nadA200, true), (nadB200, true)]
        [(200, "10.0.0.0/24")])[i]? = some o →
      (i + 1 < 2 →
        o.calls = [.List "" [("network.harvesterhci.io/vlan-id", "200")]] ∧
        o.err = none ∧ o.world = [(200, "10.0.0.0/24")]) ∧
      (i + 1 = 2 → ∃ cidr,
        o.calls = [.List "" [("network.harvesterhci.io/vlan-id", "200")], .GetVlan,
          .RemoveLocalArea 200 cidr]) :=
  removal_sequence_refcount exampleDeps true [nadA200, nadB200] [(200, "10.0.0.0/24")] 200
    (fun r hr => by
      simp only [List.mem_cons, List.mem_singleton, List.not_mem_nil, or_false] at hr
      rcases hr with rfl | rfl <;> exact ⟨by decide, rfl, by decide, ⟨_, rfl⟩⟩)
    (fun _ => ⟨(), rfl⟩)

/-- C1, counterexample. Records `a` and `b` both declare VLAN 200. When `a` is removed and
is no longer visible in the label index while its `OnRemove` runs, the index returns `b`
alone, and the removal of `a`, the first of two, calls `GetVlan` and `RemoveLocalArea` for
VLAN 200 although `b` is still live. -/
theorem removal_sequence_invisible_record :
    (removeAll exampleDeps true [(nadA200, false), (nadB200, true)]
        [(200, "10.0.0.0/24")]).map (fun o => o.calls) =
      [[.List "" [("network.harvesterhci.io/vlan-id", "200")], .GetVlan,
          .RemoveLocalArea 200 "10.0.0.0/24"],
        [.List "" [("network.harvesterhci.io/vlan-id", "200")], .GetVlan,
          .RemoveLocalArea 200 "10.0.0.0/24"]] := by
  decide

end Handlers

end Harvester

namespace Harvester

/-! ## Lemmas on the kernel model -/

theorem findLink_name {name : String} {ls : List KLink} {l : KLink}
    (h : findLink name ls = some l) : l.name = name := by
  induction ls with
  | nil => simp [findLink] at h
  | cons x xs ih =>
    unfold findLink at h
    split at h
    · cases h; assumption
    · exact ih h

theorem findLink_modifyLink (name : String) (f : KLink → KLink)
    (hf : ∀ l, (f l).name = l.name) (ls : List KLink) :
    findLink name (modifyLink name f ls) = (findLink name ls).map f := by
  induction ls with
  | nil => simp [findLink, modifyLink]
  | cons x xs ih =>
    by_cases hx : x.name = name
    · simp [findLink, modifyLink, hx, hf]
    · simp [findLink, modifyLink, hx, ih]

theorem modifyLink_fixed (name : String) (f : KLink → KLink) (ls : List KLink)
    (h : ∀ l, findLink name ls = some l → f l = l) : modifyLink name f ls = ls := by
  induction ls with
  | nil => simp [modifyLink]
  | cons x xs ih =>
    by_cases hx : x.name = name
    · have := h x (by simp [findLink, hx])
      simp [modifyLink, hx, this]
    · have hxs : ∀ l, findLink name xs = some l → f l = l := fun l hl =>
        h l (by simp [findLink, hx, hl])
      simp [modifyLink, hx, ih hxs]

theorem findLink_append_new (name : String) (ls : List KLink) (l : KLink)
    (hnone : findLink name ls = none) (hl : l.name = name) :
    findLink name (ls ++ [l]) = some l := by
  induction ls with
  | nil => simp [findLink, hl]
  | cons x xs ih =>
    by_cases hx : x.name = name
    · simp [findLink, hx] at hnone
    · simp only [findLink, hx, if_false] at hnone
      simp [findLink, hx, ih hnone]

theorem lookup_replace (key : String) (v : Int) (t : List (String × Int))
    (h : (t.lookup key).isSome) :
    (t.map fun kv => if kv.1 = key then (key, v) else kv).lookup key = some v := by
  induction t with
  | nil => simp at h
  | cons x xs ih =>
    obtain ⟨a, b⟩ := x
    by_cases hx : a = key
    · rw [List.map_cons]
      dsimp only
      rw [if_pos hx, List.lookup_cons, beq_self_eq_true]
    · have hne : (key == a) = false := by simpa using fun h => hx h.symm
      rw [List.lookup_cons, hne] at h
      rw [List.map_cons]
      dsimp only
      rw [if_neg hx, List.lookup_cons, hne]
      exact ih h

/-- A successful `disableBridgeNF` leaves the hook at zero and touches nothing else. -/
theorem disableBridgeNF_ok {k k1 : Kernel} (h : disableBridgeNF k = (none, k1)) :
    k1.links = k.links ∧ k1.iptForward = k.iptForward ∧
      k1.sysctl.lookup bridgeNFCallIptables = some 0 := by
  unfold disableBridgeNF sysctl.GetSysctl at h
  cases hl : k.sysctl.lookup bridgeNFCallIptables with
  | none => simp [hl] at h
  | some v =>
    simp only [hl] at h
    by_cases hv : v = 0
    · simp only [hv, ne_eq, not_true_eq_false, if_false, Prod.mk.injEq, true_and] at h
      subst h
      exact ⟨rfl, rfl, by rw [hl, hv]⟩
    · simp only [sysctl.SetSysctl, hl, ne_eq, hv, not_false_eq_true, if_true, Prod.mk.injEq,
        true_and] at h
      subst h
      exact ⟨rfl, rfl, lookup_replace _ _ _ (by simp [hl])⟩

/-- With the hook at zero `disableBridgeNF` changes nothing. -/
theorem disableBridgeNF_settled {k : Kernel}
    (h : k.sysctl.lookup bridgeNFCallIptables = some 0) : disableBridgeNF k = (none, k) := by
  simp [disableBridgeNF, sysctl.GetSysctl, h]

/-- The index write of netlink keeps the name of the link. -/
theorem ensureIndex_name (b : netlink.Bridge) (k : Kernel) :
    (netlink.ensureIndex b k).LinkAttrs.Name = b.LinkAttrs.Name := by
  unfold netlink.ensureIndex
  split
  · split <;> rfl
  · rfl

/-- The index write of netlink changes nothing on a link whose index is not zero or is the
one of the kernel link of its name. -/
theorem ensureIndex_fixed {b : netlink.Bridge} {k : Kernel} {l : KLink}
    (hl : findLink b.LinkAttrs.Name k.links = some l)
    (hi : b.LinkAttrs.Index ≠ 0 ∨ b.LinkAttrs.Index = l.index) :
    netlink.ensureIndex b k = b := by
  unfold netlink.ensureIndex
  by_cases h0 : b.LinkAttrs.Index = 0
  · have hidx : l.index = b.LinkAttrs.Index := by
      rcases hi with hi | hi
      · exact absurd h0 hi
      · exact hi.symm
    simp only [h0, if_true, hl]
    rw [hidx, h0]
    obtain ⟨⟨i, n, f, p, o⟩, v⟩ := b
    simp only at h0
    subst h0
    rfl
  · simp [h0]

/-- After the index write of netlink on a link the kernel holds, the index is not zero or
is the one of the kernel link. -/
theorem ensureIndex_index {b : netlink.Bridge} {k : Kernel} {l : KLink}
    (hl : findLink b.LinkAttrs.Name k.links = some l) :
    (netlink.ensureIndex b k).LinkAttrs.Index ≠ 0 ∨
      (netlink.ensureIndex b k).LinkAttrs.Index = l.index := by
  unfold netlink.ensureIndex
  by_cases h0 : b.LinkAttrs.Index = 0
  · right
    simp [h0, hl]
  · left
    simp [h0]

/-- The projection `Fetch` builds from a kernel link. -/
theorem Fetch_found {br : Bridge} {k : Kernel} {l : KLink}
    (hl : findLink br.Name k.links = some l) (hk : l.kind = "bridge") :
    br.Fetch k = (none, ⟨⟨l.attrs, some l.vlanFiltering⟩, l.addrs, l.routes⟩) := by
  have hn : l.name = br.Name := findLink_name hl
  have hl2 : findLink (l.attrs).Name k.links = some l := by
    show findLink l.name k.links = some l
    rw [hn]; exact hl
  have hfix : netlink.ensureIndex ⟨l.attrs, some l.vlanFiltering⟩ k =
      ⟨l.attrs, some l.vlanFiltering⟩ :=
    @ensureIndex_fixed ⟨l.attrs, some l.vlanFiltering⟩ k l hl2 (Or.inr rfl)
  have hfetch : fetchByName br.Name k = .ok ⟨l.attrs, some l.vlanFiltering⟩ := by
    simp [fetchByName, netlink.LinkByName, hl, KLink.toLink, hk]
  have haddr : netlink.AddrList ⟨l.attrs, some l.vlanFiltering⟩ k =
      (.ok l.addrs, ⟨l.attrs, some l.vlanFiltering⟩) := by
    simp only [netlink.AddrList, hl2, hfix]
  have hroute : netlink.RouteList ⟨l.attrs, some l.vlanFiltering⟩ k = .ok l.routes := by
    simp only [netlink.RouteList, hl2]
  simp only [Bridge.Fetch, hfetch, haddr, hroute]

/-- Outcome of `netlink.LinkAdd`: no error or `EEXIST`, and the name is then held. -/
theorem LinkAdd_cases (b : netlink.Bridge) (k : Kernel) :
    ∃ e b1 k2, netlink.LinkAdd b k = (e, b1, k2) ∧ (e = none ∨ e = some EEXIST) ∧
      b1.LinkAttrs.Name = b.LinkAttrs.Name ∧ k2.sysctl = k.sysctl ∧
      k2.iptForward = k.iptForward ∧ ∃ l, findLink b.LinkAttrs.Name k2.links = some l := by
  unfold netlink.LinkAdd
  cases hf : findLink b.LinkAttrs.Name k.links with
  | some l => exact ⟨_, _, _, rfl, Or.inr rfl, rfl, rfl, rfl, l, hf⟩
  | none => exact ⟨_, _, _, rfl, Or.inl rfl, rfl, rfl, rfl, _, findLink_append_new _ _ _ hf rfl⟩

/-- The promiscuity step of `Ensure` succeeds on a link that exists and leaves it
promiscuous. -/
theorem promisc_step {b b3 : netlink.Bridge} {k k3 : Kernel} {l : KLink} {p : Nat}
    {e : Option GoError} (hl : findLink b.LinkAttrs.Name k.links = some l)
    (h : (if p ≠ 1 then netlink.SetPromiscOn b k else (none, b, k)) = (e, b3, k3))
    (hp : p = l.promiscuity) :
    e = none ∧ b3.LinkAttrs.Name = b.LinkAttrs.Name ∧ k3.sysctl = k.sysctl ∧
      k3.iptForward = k.iptForward ∧
      ∃ l3, findLink b.LinkAttrs.Name k3.links = some l3 ∧ l3.promiscuity ≠ 0 ∧
        l3.kind = l.kind ∧ l3.up = l.up ∧ l3.carrier = l.carrier := by
  by_cases hp1 : p = 1
  · simp only [hp1, ne_eq, not_true_eq_false, if_false, Prod.mk.injEq] at h
    obtain ⟨rfl, rfl, rfl⟩ := h
    exact ⟨rfl, rfl, rfl, rfl, l, hl, by omega, rfl, rfl, rfl⟩
  · simp only [ne_eq, hp1, not_false_eq_true, if_true, netlink.SetPromiscOn, hl,
      Prod.mk.injEq] at h
    obtain ⟨rfl, rfl, rfl⟩ := h
    refine ⟨rfl, ensureIndex_name b k, rfl, rfl,
      (if l.promiscuity = 0 then { l with promiscuity := 1 } else l), ?_, ?_⟩
    · show findLink b.LinkAttrs.Name (modifyLink b.LinkAttrs.Name
        (fun l => if l.promiscuity = 0 then { l with promiscuity := 1 } else l) k.links) = _
      rw [findLink_modifyLink _
        (fun l => if l.promiscuity = 0 then { l with promiscuity := 1 } else l)
        (fun x => by dsimp only; split <;> rfl), hl]
      rfl
    · by_cases h0 : l.promiscuity = 0 <;> simp [h0]

/-- The forwarding step of `Ensure` succeeds and leaves a forward rule for the name. -/
theorem ipt_step {il : IfaceLink} {k k4 : Kernel} {e : Option GoError}
    (h : il.EnsureIptForward k = (e, k4)) :
    e = none ∧ k4.sysctl = k.sysctl ∧ k4.links = k.links ∧
      il.link.LinkAttrs.Name ∈ k4.iptForward := by
  unfold IfaceLink.EnsureIptForward at h
  split at h
  · obtain ⟨rfl, rfl⟩ := Prod.mk.inj h
    exact ⟨rfl, rfl, rfl, by assumption⟩
  · obtain ⟨rfl, rfl⟩ := Prod.mk.inj h
    exact ⟨rfl, rfl, rfl, by simp⟩

/-- The set-up step of `Ensure` succeeds on a link that exists and leaves it up. -/
theorem up_step {b b5 : netlink.Bridge} {k k5 : Kernel} {l : KLink}
    {st : netlink.LinkOperState} {e : Option GoError}
    (hl : findLink b.LinkAttrs.Name k.links = some l)
    (h : (if st ≠ .OperUp then netlink.LinkSetUp b k else (none, b, k)) = (e, b5, k5))
    (hst : st = .OperUp → l.up = true) :
    e = none ∧ b5.LinkAttrs.Name = b.LinkAttrs.Name ∧ k5.sysctl = k.sysctl ∧
      k5.iptForward = k.iptForward ∧
      ∃ l5, findLink b.LinkAttrs.Name k5.links = some l5 ∧ l5.up = true ∧
        l5.promiscuity = l.promiscuity ∧ l5.kind = l.kind := by
  by_cases hs : st = .OperUp
  · simp only [hs, ne_eq, not_true_eq_false, if_false, Prod.mk.injEq] at h
    obtain ⟨rfl, rfl, rfl⟩ := h
    exact ⟨rfl, rfl, rfl, rfl, l, hl, hst hs, rfl, rfl⟩
  · simp only [ne_eq, hs, not_false_eq_true, if_true, netlink.LinkSetUp, hl,
      Prod.mk.injEq] at h
    obtain ⟨rfl, rfl, rfl⟩ := h
    refine ⟨rfl, ensureIndex_name b k, rfl, rfl, { l with up := true }, ?_, rfl, rfl, rfl⟩
    show findLink b.LinkAttrs.Name (modifyLink b.LinkAttrs.Name
      (fun l => { l with up := true }) k.links) = _
    rw [findLink_modifyLink _ (fun l => { l with up := true }) (fun x => rfl), hl]
    rfl

/-- What a successful `Ensure` leaves behind: the hook at zero, a forward rule, and a
kernel bridge of the name that is up and promiscuous, of which the projection is the
image. -/
theorem Ensure_ok {br br1 : Bridge} {k k1 : Kernel} (h : br.Ensure k = (none, br1, k1)) :
    k1.sysctl.lookup bridgeNFCallIptables = some 0 ∧ br.Name ∈ k1.iptForward ∧
      ∃ l, findLink br.Name k1.links = some l ∧ l.kind = "bridge" ∧ l.up = true ∧
        l.promiscuity ≠ 0 ∧ br1 = ⟨⟨l.attrs, some l.vlanFiltering⟩, l.addrs, l.routes⟩ := by
  unfold Bridge.Ensure at h
  rcases hd : disableBridgeNF k with ⟨_ | e0, ka⟩
  swap
  · simp [hd] at h
  obtain ⟨-, hda, hds⟩ := disableBridgeNF_ok hd
  obtain ⟨e, b1, k2, hadd, he, hname, hs2, hi2, l2, hl2⟩ := LinkAdd_cases br.bridge ka
  simp only [hd, hadd] at h
  have hcond : ¬ (e ≠ none ∧ e ≠ some EEXIST) := by
    rcases he with rfl | rfl <;> simp
  rw [if_neg hcond] at h
  have hl2' : findLink b1.LinkAttrs.Name k2.links = some l2 := by rw [hname]; exact hl2
  by_cases hk : l2.kind = "bridge"
  swap
  · simp [fetchByName, netlink.LinkByName, hl2', KLink.toLink, hk] at h
  have hfetch : fetchByName b1.LinkAttrs.Name k2 = .ok ⟨l2.attrs, some l2.vlanFiltering⟩ := by
    simp [fetchByName, netlink.LinkByName, hl2', KLink.toLink, hk]
  simp only [hfetch] at h
  rcases hp : (if (l2.attrs).Promisc ≠ 1 then netlink.SetPromiscOn b1 k2 else (none, b1, k2))
    with ⟨e3, b3, k3⟩
  obtain ⟨rfl, hn3, hs3, hi3, l3, hl3, hp3, hk3, hu3, hc3⟩ := promisc_step hl2' hp rfl
  simp only [hp] at h
  rcases hipt : IfaceLink.EnsureIptForward (Bridge.ToLink { br with bridge := b3 }) k3
    with ⟨e4, k4⟩
  obtain ⟨rfl, hs4, hlinks4, hin4⟩ := ipt_step hipt
  simp only [hipt] at h
  have hl4 : findLink b3.LinkAttrs.Name k4.links = some l3 := by
    rw [hlinks4, hn3]; exact hl3
  rcases hup : (if (l2.attrs).OperState ≠ .OperUp then netlink.LinkSetUp b3 k4
    else (none, b3, k4)) with ⟨e5, b5, k5⟩
  have hst : (l2.attrs).OperState = .OperUp → l3.up = true := by
    intro hst
    rw [hu3]
    by_cases hu : l2.up = true
    · exact hu
    · simp [KLink.attrs, KLink.operState, hu] at hst
  obtain ⟨rfl, hn5, hs5, hi5, l5, hl5, hu5, hp5, hk5⟩ := up_step hl4 hup hst
  simp only [hup] at h
  have hname5 : b5.LinkAttrs.Name = br.Name := by
    rw [hn5, hn3, hname]; rfl
  have hl5' : findLink (Bridge.Name { br with bridge := b5 }) k5.links = some l5 := by
    show findLink b5.LinkAttrs.Name k5.links = some l5
    rw [hn5]; exact hl5
  have hfin := @Fetch_found { br with bridge := b5 } k5 l5 hl5' (by rw [hk5, hk3, hk])
  rw [hfin] at h
  simp only [Prod.mk.injEq, true_and] at h
  obtain ⟨rfl, rfl⟩ := h
  refine ⟨?_, ?_, l5, ?_, by rw [hk5, hk3, hk], hu5, by rw [hp5]; exact hp3, rfl⟩
  · rw [hs5, hs4, hs3, hs2]; exact hds
  · rw [hi5]
    have : br.Name = b3.LinkAttrs.Name := by rw [hn3, hname]; rfl
    rw [this]; exact hin4
  · rw [← hname5]; exact hl5'

/-- Setting promiscuous mode on a link that is promiscuous changes nothing. -/
theorem SetPromiscOn_settled {b : netlink.Bridge} {k : Kernel} {l : KLink}
    (hl : findLink b.LinkAttrs.Name k.links = some l) (hp : l.promiscuity ≠ 0)
    (hi : b.LinkAttrs.Index ≠ 0 ∨ b.LinkAttrs.Index = l.index) :
    netlink.SetPromiscOn b k = (none, b, k) := by
  have hfix : modifyLink b.LinkAttrs.Name
      (fun l => if l.promiscuity = 0 then { l with promiscuity := 1 } else l) k.links =
      k.links := by
    apply modifyLink_fixed
    intro x hx
    rw [hl] at hx
    cases hx
    simp [hp]
  simp only [netlink.SetPromiscOn, hl, hfix, ensureIndex_fixed hl hi]

/-- Setting up a link that is up changes nothing. -/
theorem LinkSetUp_settled {b : netlink.Bridge} {k : Kernel} {l : KLink}
    (hl : findLink b.LinkAttrs.Name k.links = some l) (hu : l.up = true)
    (hi : b.LinkAttrs.Index ≠ 0 ∨ b.LinkAttrs.Index = l.index) :
    netlink.LinkSetUp b k = (none, b, k) := by
  have hfix : modifyLink b.LinkAttrs.Name (fun l => { l with up := true }) k.links =
      k.links := by
    apply modifyLink_fixed
    intro x hx
    rw [hl] at hx
    cases hx
    cases l
    simp only at hu
    simp [hu]
  simp only [netlink.LinkSetUp, hl, hfix, ensureIndex_fixed hl hi]

/-- On a kernel that a successful `Ensure` left behind, `Ensure` succeeds again and changes
neither the kernel nor the projection. -/
theorem Ensure_settled {k : Kernel} {l : KLink}
    (hs : k.sysctl.lookup bridgeNFCallIptables = some 0) (hi : l.name ∈ k.iptForward)
    (hl : findLink l.name k.links = some l) (hk : l.kind = "bridge") (hu : l.up = true)
    (hp : l.promiscuity ≠ 0) :
    Bridge.Ensure ⟨⟨l.attrs, some l.vlanFiltering⟩, l.addrs, l.routes⟩ k =
      (none, ⟨⟨l.attrs, some l.vlanFiltering⟩, l.addrs, l.routes⟩, k) := by
  have hl' : findLink (l.attrs).Name k.links = some l := hl
  have hadd : netlink.LinkAdd ⟨l.attrs, some l.vlanFiltering⟩ k =
      (some EEXIST, ⟨l.attrs, some l.vlanFiltering⟩, k) := by
    simp [netlink.LinkAdd, hl']
  have hfetch : fetchByName (l.attrs).Name k = .ok ⟨l.attrs, some l.vlanFiltering⟩ := by
    simp [fetchByName, netlink.LinkByName, hl', KLink.toLink, hk]
  have hprom : (if (l.attrs).Promisc ≠ 1 then
      netlink.SetPromiscOn ⟨l.attrs, some l.vlanFiltering⟩ k
        else (none, ⟨l.attrs, some l.vlanFiltering⟩, k)) =
      (none, ⟨l.attrs, some l.vlanFiltering⟩, k) := by
    split
    · exact @SetPromiscOn_settled ⟨l.attrs, some l.vlanFiltering⟩ k l hl' hp (Or.inr rfl)
    · rfl
  have hipt : IfaceLink.EnsureIptForward
      (Bridge.ToLink ⟨⟨l.attrs, some l.vlanFiltering⟩, l.addrs, l.routes⟩) k = (none, k) := by
    have : (l.attrs).Name ∈ k.iptForward := hi
    simp [IfaceLink.EnsureIptForward, Bridge.ToLink, this]
  have hup : (if (l.attrs).OperState ≠ .OperUp then
      netlink.LinkSetUp ⟨l.attrs, some l.vlanFiltering⟩ k
        else (none, ⟨l.attrs, some l.vlanFiltering⟩, k)) =
      (none, ⟨l.attrs, some l.vlanFiltering⟩, k) := by
    split
    · exact @LinkSetUp_settled ⟨l.attrs, some l.vlanFiltering⟩ k l hl' hu (Or.inr rfl)
    · rfl
  have hfin := @Fetch_found ⟨⟨l.attrs, some l.vlanFiltering⟩, l.addrs, l.routes⟩ k l hl' hk
  unfold Bridge.Ensure
  simp only [disableBridgeNF_settled hs, hadd, hfetch, hprom, hipt, hup, hfin]
  simp [EEXIST]

/-- On a fetched link that exists the deletion loop of `ClearAddr`, run over the addresses
of the link, succeeds, leaves the link without address and the projection as it is. -/
theorem clearLoop_ok :
    ∀ (as : List netlink.Addr) (br : Bridge) (k : Kernel) (l : KLink),
      findLink br.bridge.LinkAttrs.Name k.links = some l → l.addrs = as →
      (br.bridge.LinkAttrs.Index ≠ 0 ∨ br.bridge.LinkAttrs.Index = l.index) →
      ∃ k1, br.clearLoop as k = (none, br, k1) ∧
        findLink br.bridge.LinkAttrs.Name k1.links = some { l with addrs := [] } := by
  intro as
  induction as with
  | nil =>
    intro br k l hl has _
    refine ⟨k, rfl, ?_⟩
    rw [hl, ← has]
  | cons a rest ih =>
    intro br k l hl has hi
    have hmem : a.IPNet ∈ l.addrs.map netlink.Addr.IPNet := by simp [has]
    have hfind : findLink br.bridge.LinkAttrs.Name (modifyLink br.bridge.LinkAttrs.Name
        (fun l => { l with addrs := netlink.eraseAddr a.IPNet l.addrs }) k.links) =
        some { l with addrs := rest } := by
      rw [findLink_modifyLink _
        (fun l => { l with addrs := netlink.eraseAddr a.IPNet l.addrs }) (fun x => rfl), hl]
      simp [has, netlink.eraseAddr]
    obtain ⟨k1, hk1, hl1⟩ := ih br
      { k with links := modifyLink br.bridge.LinkAttrs.Name
                          (fun l => { l with addrs := netlink.eraseAddr a.IPNet l.addrs })
                          k.links }
      { l with addrs := rest } hfind rfl hi
    refine ⟨k1, ?_, hl1⟩
    simp only [Bridge.clearLoop, netlink.AddrDel, hl, hmem, if_true, ensureIndex_fixed hl hi]
    exact hk1

/-- On a link that exists the loop of `SyncIPv4Addr` succeeds. The link gains, after the
addresses it had, addresses labelled with the bridge name, and then holds every address of
the list; the kernel is unchanged when the link held them all before. Of the projection
only the link changes: netlink writes its index when the list is not empty. -/
theorem syncLoop_ok :
    ∀ (as : List netlink.Addr) (br : Bridge) (k : Kernel) (l : KLink),
      findLink br.bridge.LinkAttrs.Name k.links = some l →
      ∃ k1 added,
        br.syncLoop as k =
          (none, { br with bridge := if as = [] then br.bridge
                                     else netlink.ensureIndex br.bridge k }, k1) ∧
        findLink br.bridge.LinkAttrs.Name k1.links =
          some { l with addrs := l.addrs ++ added } ∧
        (∀ a ∈ added, a.Label = br.bridge.LinkAttrs.Name ∧
          a.IPNet ∈ as.map netlink.Addr.IPNet) ∧
        (∀ ip ∈ as.map netlink.Addr.IPNet,
          ip ∈ (l.addrs ++ added).map netlink.Addr.IPNet) ∧
        ((∀ ip ∈ as.map netlink.Addr.IPNet, ip ∈ l.addrs.map netlink.Addr.IPNet) →
          k1 = k) := by
  intro as
  induction as with
  | nil =>
    intro br k l hl
    exact ⟨k, [], rfl, by simpa using hl, by simp, by simp, fun _ => rfl⟩
  | cons a rest ih =>
    intro br k l hl
    have hname := ensureIndex_name br.bridge k
    have hstable : ∀ (k2 : Kernel) (l2 : KLink),
        findLink br.bridge.LinkAttrs.Name k2.links = some l2 → l2.index = l.index →
        (if rest = [] then netlink.ensureIndex br.bridge k
          else netlink.ensureIndex (netlink.ensureIndex br.bridge k) k2) =
          netlink.ensureIndex br.bridge k := by
      intro k2 l2 hl2 hidx
      split
      · rfl
      · apply @ensureIndex_fixed _ k2 l2
        · rw [hname]; exact hl2
        · rw [hidx]; exact ensureIndex_index hl
    by_cases hmem : a.IPNet ∈ l.addrs.map netlink.Addr.IPNet
    · obtain ⟨k1, added, hk1, hl1, hlab, hall, hsame⟩ :=
        ih { br with bridge := netlink.ensureIndex br.bridge k } k l (by rw [hname]; exact hl)
      refine ⟨k1, added, ?_, ?_, ?_, ?_, ?_⟩
      · simp only [Bridge.syncLoop, netlink.AddrAdd, hl, hmem, if_true]
        have hne : ¬ (EEXIST ≠ EEXIST) := by simp
        rw [if_neg hne, hk1, hstable k l hl rfl]
        simp
      · rw [← hname]; exact hl1
      · intro x hx
        exact ⟨by rw [← hname]; exact (hlab x hx).1, List.mem_cons_of_mem _ (hlab x hx).2⟩
      · intro ip hip
        rcases List.mem_cons.mp hip with rfl | hip
        · rw [List.map_append]
          exact List.mem_append_left _ hmem
        · exact hall ip hip
      · intro hpre
        exact hsame (fun ip hip => hpre ip (by
          rw [List.map_cons]; exact List.mem_cons_of_mem _ hip))
    · obtain ⟨k2, l2, hl2, hidx2, haddrs2, hl2eq, hadd2⟩ : ∃ (k2 : Kernel) (l2 : KLink),
          findLink br.bridge.LinkAttrs.Name k2.links = some l2 ∧ l2.index = l.index ∧
          l2.addrs = l.addrs ++
            [({ a with Label := br.bridge.LinkAttrs.Name } : netlink.Addr)] ∧
          (∀ xs, ({ l2 with addrs := xs } : KLink) = { l with addrs := xs }) ∧
          netlink.AddrAdd br.bridge { a with Label := br.bridge.LinkAttrs.Name } k =
            (none, netlink.ensureIndex br.bridge k, k2) := by
        refine ⟨{ k with links := modifyLink br.bridge.LinkAttrs.Name
                                    (fun l => { l with addrs := l.addrs ++
                                      [({ a with Label := br.bridge.LinkAttrs.Name } :
                                        netlink.Addr)] })
                                    k.links },
          { l with addrs := l.addrs ++
              [({ a with Label := br.bridge.LinkAttrs.Name } : netlink.Addr)] },
          ?_, rfl, rfl, fun _ => rfl, ?_⟩
        · show findLink br.bridge.LinkAttrs.Name (modifyLink br.bridge.LinkAttrs.Name
            (fun l => { l with addrs := l.addrs ++
              [({ a with Label := br.bridge.LinkAttrs.Name } : netlink.Addr)] }) k.links) = _
          rw [findLink_modifyLink _ (fun l => { l with addrs := l.addrs ++
            [({ a with Label := br.bridge.LinkAttrs.Name } : netlink.Addr)] })
            (fun x => rfl), hl]
          rfl
        · simp only [netlink.AddrAdd, hl, hmem, if_false]
      obtain ⟨k1, added, hk1, hl1, hlab, hall, -⟩ := ih
        { br with bridge := netlink.ensureIndex br.bridge k } k2 l2
        (by rw [hname]; exact hl2)
      refine ⟨k1, ({ a with Label := br.bridge.LinkAttrs.Name } : netlink.Addr) :: added,
        ?_, ?_, ?_, ?_, ?_⟩
      · simp only [Bridge.syncLoop, hadd2]
        rw [hk1, hstable k2 l2 hl2 hidx2]
        simp
      · rw [(congrArg (fun n => findLink n k1.links) hname).symm.trans hl1, haddrs2, hl2eq]
        simp
      · intro x hx
        rcases List.mem_cons.mp hx with rfl | hx
        · exact ⟨rfl, by simp⟩
        · exact ⟨by rw [← hname]; exact (hlab x hx).1,
            List.mem_cons_of_mem _ (hlab x hx).2⟩
      · intro ip hip
        rcases List.mem_cons.mp hip with rfl | hip
        · simp
        · have := hall ip hip
          rw [haddrs2] at this
          simpa using this
      · intro hpre
        exact absurd (hpre a.IPNet (by simp)) hmem

/-- A successful `Fetch` found a kernel bridge of the name, of which the projection is the
image. -/
theorem Fetch_ok {br br1 : Bridge} {k : Kernel} (h : br.Fetch k = (none, br1)) :
    ∃ l, findLink br.Name k.links = some l ∧ l.kind = "bridge" ∧
      br1 = ⟨⟨l.attrs, some l.vlanFiltering⟩, l.addrs, l.routes⟩ := by
  cases hl : findLink br.Name k.links with
  | none => simp [Bridge.Fetch, fetchByName, netlink.LinkByName, hl] at h
  | some l =>
    by_cases hk : l.kind = "bridge"
    · rw [Fetch_found hl hk] at h
      simp only [Prod.mk.injEq, true_and] at h
      exact ⟨l, rfl, hk, h.symm⟩
    · simp [Bridge.Fetch, fetchByName, netlink.LinkByName, hl, KLink.toLink, hk] at h

/-- A successful run of the loop of `SyncIPv4Addr` leaves the cached lists alone and, of
the cached link, changes the index only, through netlink. -/
theorem syncLoop_projection {br br1 : Bridge} {as : List netlink.Addr} {k k1 : Kernel}
    (h : br.syncLoop as k = (none, br1, k1)) :
    br1 = { br with bridge := if as = [] then br.bridge
                               else netlink.ensureIndex br.bridge k } := by
  cases hl : findLink br.bridge.LinkAttrs.Name k.links with
  | some l =>
    obtain ⟨k2, added, hk2, -⟩ := syncLoop_ok as br k l hl
    rw [hk2] at h
    simp only [Prod.mk.injEq, true_and] at h
    exact h.1.symm
  | none =>
    cases as with
    | nil =>
      simp only [Bridge.syncLoop, Prod.mk.injEq, true_and] at h
      simp [← h.1]
    | cons a rest =>
      simp [Bridge.syncLoop, netlink.AddrAdd, hl, ENODEV, EEXIST] at h

/-! ## Theorems: bridge manager -/

/-- C7, the code at the failing input. The kernel holds a bridge named `harvester-br0`
that is down, not promiscuous and has VLAN filtering disabled. `Ensure` on
`NewBridge "harvester-br0"` returns no error and leaves the kernel bridge up and
promiscuous, but with VLAN filtering still disabled, in the kernel and in the refreshed
projection. -/
theorem Ensure_existing_bridge_vlan_filtering :
    ((NewBridge "harvester-br0").Ensure (bridgeKernel "harvester-br0" [])).1 = none ∧
    (findLink "harvester-br0"
        ((NewBridge "harvester-br0").Ensure (bridgeKernel "harvester-br0" [])).2.2.links).map
      (fun l => (l.up, l.promiscuity, l.vlanFiltering)) = some (true, 1, false) ∧
    ((NewBridge "harvester-br0").Ensure
      (bridgeKernel "harvester-br0" [])).2.1.bridge.VlanFiltering = some false ∧
    (findLink "harvester-br0"
        ((NewBridge "harvester-br0").Ensure emptyKernel).2.2.links).map
      (fun l => (l.up, l.promiscuity, l.vlanFiltering)) = some (true, 1, true) := by
  decide

/-- C8. `Ensure` is idempotent: when a call of `Ensure` returns no error, leaving projection
`br1` and kernel `k1`, a second call on them returns no error and leaves the same
projection and the same kernel (links, flags, sysctl table, forward rules); the link-add of
the second call meets the existing bridge (`EEXIST`), which is not reported. -/
theorem Ensure_idempotent (br br1 : Bridge) (k k1 : Kernel)
    (h : br.Ensure k = (none, br1, k1)) :
    br1.Ensure k1 = (none, br1, k1) ∧ (netlink.LinkAdd br1.bridge k1).1 = some EEXIST := by
  obtain ⟨hs, hi, l, hl, hk, hu, hp, rfl⟩ := Ensure_ok h
  have hn : l.name = br.Name := findLink_name hl
  rw [← hn] at hl hi
  refine ⟨Ensure_settled hs hi hl hk hu hp, ?_⟩
  have hl' : findLink (l.attrs).Name k1.links = some l := hl
  simp [netlink.LinkAdd, hl']

/-- Instance of C8: `Ensure` twice on a node without the bridge. -/
theorem Ensure_idempotent_witness :
    ((NewBridge "harvester-br0").Ensure emptyKernel).2.1.Ensure
        ((NewBridge "harvester-br0").Ensure emptyKernel).2.2 =
      (none, ((NewBridge "harvester-br0").Ensure emptyKernel).2.1,
        ((NewBridge "harvester-br0").Ensure emptyKernel).2.2) ∧
    (netlink.LinkAdd ((NewBridge "harvester-br0").Ensure emptyKernel).2.1.bridge
      ((NewBridge "harvester-br0").Ensure emptyKernel).2.2).1 = some EEXIST :=
  Ensure_idempotent (NewBridge "harvester-br0")
    ((NewBridge "harvester-br0").Ensure emptyKernel).2.1 emptyKernel
    ((NewBridge "harvester-br0").Ensure emptyKernel).2.2 (by decide)

/-- What `SyncIPv4Addr` achieves. When the kernel holds the bridge, with addresses
`before`, and `SyncIPv4Addr slave` returns no error: the bridge then holds `before`
followed by added addresses, each labelled with the bridge name and taken from the slave;
ignoring labels its address set is the union of the set it had and the set of the slave,
hence the set of the slave when it had no address; and a second `SyncIPv4Addr slave`
returns no error and leaves kernel and projection as they are. -/
theorem SyncIPv4Addr_adds_missing (br br1 : Bridge) (slave : IFace) (k k1 : Kernel)
    (before : List netlink.Addr) (hb : (netlink.AddrList br.bridge k).1 = .ok before)
    (h : br.SyncIPv4Addr slave k = (none, br1, k1)) :
    ∃ added, (netlink.AddrList br1.bridge k1).1 = .ok (before ++ added) ∧
      (∀ a ∈ added, a.Label = br.Name ∧ a.IPNet ∈ slave.Addr.map netlink.Addr.IPNet) ∧
      (∀ ip, ip ∈ (before ++ added).map netlink.Addr.IPNet ↔
        ip ∈ before.map netlink.Addr.IPNet ∨ ip ∈ slave.Addr.map netlink.Addr.IPNet) ∧
      (before = [] → ∀ ip, ip ∈ (before ++ added).map netlink.Addr.IPNet ↔
        ip ∈ slave.Addr.map netlink.Addr.IPNet) ∧
      br1.SyncIPv4Addr slave k1 = (none, br1, k1) := by
  unfold netlink.AddrList at hb
  cases hl : findLink br.bridge.LinkAttrs.Name k.links with
  | none => simp [hl] at hb
  | some l =>
    simp only [hl, Except.ok.injEq] at hb
    subst hb
    obtain ⟨k2, added, hk2, hl2, hlab, hall, -⟩ := syncLoop_ok slave.Addr br k l hl
    unfold Bridge.SyncIPv4Addr at h ⊢
    rw [hk2] at h
    simp only [Prod.mk.injEq, true_and] at h
    obtain ⟨rfl, rfl⟩ := h
    have hname1 : (if slave.Addr = [] then br.bridge
        else netlink.ensureIndex br.bridge k).LinkAttrs.Name = br.bridge.LinkAttrs.Name := by
      split
      · rfl
      · exact ensureIndex_name br.bridge k
    have hl2' : findLink (if slave.Addr = [] then br.bridge
        else netlink.ensureIndex br.bridge k).LinkAttrs.Name k2.links =
        some { l with addrs := l.addrs ++ added } := by
      rw [hname1]; exact hl2
    have hunion : ∀ ip, ip ∈ (l.addrs ++ added).map netlink.Addr.IPNet ↔
        ip ∈ l.addrs.map netlink.Addr.IPNet ∨ ip ∈ slave.Addr.map netlink.Addr.IPNet := by
      intro ip
      constructor
      · intro hip
        rw [List.map_append, List.mem_append] at hip
        rcases hip with hip | hip
        · exact Or.inl hip
        · obtain ⟨a, ha, rfl⟩ := List.mem_map.mp hip
          exact Or.inr (hlab a ha).2
      · rintro (hip | hip)
        · rw [List.map_append]
          exact List.mem_append_left _ hip
        · exact hall ip hip
    refine ⟨added, ?_, hlab, hunion, ?_, ?_⟩
    · simp only [netlink.AddrList, hl2']
    · intro hnil ip
      rw [hunion ip, hnil]
      simp
    · obtain ⟨k3, added3, hk3, -, -, -, hsame⟩ := syncLoop_ok slave.Addr
        { br with bridge := if slave.Addr = [] then br.bridge
                            else netlink.ensureIndex br.bridge k }
        k2 { l with addrs := l.addrs ++ added } hl2'
      rw [hk3, hsame hall]
      by_cases hnil : slave.Addr = []
      · simp [hnil]
      · have hfix : netlink.ensureIndex (netlink.ensureIndex br.bridge k) k2 =
            netlink.ensureIndex br.bridge k := by
          apply @ensureIndex_fixed _ k2 { l with addrs := l.addrs ++ added }
          · rw [ensureIndex_name]; exact hl2
          · exact @ensureIndex_index br.bridge k l hl
        simp [hnil, hfix]

/-- Instance of the fact above: a bridge without address mirrors the one address of the
slave. -/
theorem SyncIPv4Addr_adds_missing_witness :
    ∃ added, (netlink.AddrList ((NewBridge "harvester-br0").SyncIPv4Addr slaveEth0
          (bridgeKernel "harvester-br0" [])).2.1.bridge
        ((NewBridge "harvester-br0").SyncIPv4Addr slaveEth0
          (bridgeKernel "harvester-br0" [])).2.2).1 = .ok ([] ++ added) ∧
      (∀ a ∈ added, a.Label = (NewBridge "harvester-br0").Name ∧
        a.IPNet ∈ slaveEth0.Addr.map netlink.Addr.IPNet) ∧
      (∀ ip, ip ∈ ([] ++ added).map netlink.Addr.IPNet ↔
        ip ∈ slaveEth0.Addr.map netlink.Addr.IPNet) :=
  have ⟨added, h1, h2, _, h4, _⟩ := SyncIPv4Addr_adds_missing (NewBridge "harvester-br0")
    ((NewBridge "harvester-br0").SyncIPv4Addr slaveEth0
      (bridgeKernel "harvester-br0" [])).2.1
    slaveEth0 (bridgeKernel "harvester-br0" [])
    ((NewBridge "harvester-br0").SyncIPv4Addr slaveEth0
      (bridgeKernel "harvester-br0" [])).2.2 [] rfl (by decide)
  ⟨added, h1, h2, h4 rfl⟩

/-- C9, the code at the failing input. The bridge holds `10.0.0.9/24`, the slave holds
`10.0.0.1/24`. `SyncIPv4Addr` returns no error and the bridge then holds both addresses:
its address set, ignoring labels, contains `10.0.0.9/24`, which the slave does not hold, so
it is not the address set of the slave. -/
theorem SyncIPv4Addr_keeps_other_addresses :
    ((NewBridge "harvester-br0").SyncIPv4Addr slaveEth0
      (bridgeKernel "harvester-br0" [⟨"10.0.0.9/24", "harvester-br0"⟩])).1 = none ∧
    (findLink "harvester-br0"
        ((NewBridge "harvester-br0").SyncIPv4Addr slaveEth0
          (bridgeKernel "harvester-br0" [⟨"10.0.0.9/24", "harvester-br0"⟩])).2.2.links).map
      (fun l => l.addrs) =
      some [⟨"10.0.0.9/24", "harvester-br0"⟩, ⟨"10.0.0.1/24", "harvester-br0"⟩] ∧
    "10.0.0.9/24" ∉ slaveEth0.Addr.map netlink.Addr.IPNet := by
  decide

/-- C10, as amended. With no other actor changing the kernel: after a successful `Ensure`
the projection (link attributes, `Addr()`, `Routes()`) is what the kernel holds for the
bridge of that name. After a successful `ClearAddr` the kernel holds no IPv4 address on the
bridge and the link attributes of the projection are those of the kernel, while `Addr()`
and `Routes()` are the lists read before the deletions, so `Addr()` lists the addresses
that were removed. After a successful `SyncIPv4Addr` the projection is not refreshed:
`Addr()` and `Routes()` are the lists cached before the call and the cached link is the one
cached before, in which netlink has written the index when it was zero and the slave holds
an address. -/
theorem projection_after_mutation (br br1 : Bridge) (slave : IFace) (k k1 : Kernel) :
    (br.Ensure k = (none, br1, k1) →
      br1.Name = br.Name ∧ fetchByName br.Name k1 = .ok br1.bridge ∧
      (netlink.AddrList br1.bridge k1).1 = .ok br1.Addr ∧
      netlink.RouteList br1.bridge k1 = .ok br1.Routes) ∧
    (br.ClearAddr k = (none, br1, k1) →
      br1.Name = br.Name ∧ (netlink.AddrList br1.bridge k1).1 = .ok [] ∧
      fetchByName br.Name k1 = .ok br1.bridge ∧
      (netlink.AddrList br1.bridge k).1 = .ok br1.Addr ∧
      netlink.RouteList br1.bridge k = .ok br1.Routes) ∧
    (br.SyncIPv4Addr slave k = (none, br1, k1) →
      br1.Addr = br.Addr ∧ br1.Routes = br.Routes ∧
      br1.bridge = (if slave.Addr = [] then br.bridge
        else netlink.ensureIndex br.bridge k)) := by
  refine ⟨?_, ?_, ?_⟩
  · intro h
    obtain ⟨-, -, l, hl, hk, -, -, rfl⟩ := Ensure_ok h
    have hn : l.name = br.Name := findLink_name hl
    have hl' : findLink (l.attrs).Name k1.links = some l := by
      show findLink l.name k1.links = some l
      rw [hn]; exact hl
    refine ⟨hn, ?_, ?_, ?_⟩
    · simp [fetchByName, netlink.LinkByName, hl, KLink.toLink, hk]
    · simp [netlink.AddrList, hl', Bridge.Addr]
    · simp [netlink.RouteList, hl', Bridge.Routes]
  · intro h
    unfold Bridge.ClearAddr at h
    rcases hf : br.Fetch k with ⟨_ | e, br2⟩
    swap
    · simp [hf] at h
    obtain ⟨l, hl, hk, rfl⟩ := Fetch_ok hf
    have hn : l.name = br.Name := findLink_name hl
    have hl' : findLink (l.attrs).Name k.links = some l := by
      show findLink l.name k.links = some l
      rw [hn]; exact hl
    obtain ⟨k2, hk2, hl2⟩ := clearLoop_ok l.addrs
      ⟨⟨l.attrs, some l.vlanFiltering⟩, l.addrs, l.routes⟩ k l hl' rfl (Or.inr rfl)
    simp only [hf, hk2, Prod.mk.injEq, true_and] at h
    obtain ⟨rfl, rfl⟩ := h
    have hl2' : findLink br.Name k2.links = some { l with addrs := [] } := by
      rw [← hn]; exact hl2
    refine ⟨hn, ?_, ?_, ?_, ?_⟩
    · simp [netlink.AddrList, hl2]
    · simp [fetchByName, netlink.LinkByName, hl2', KLink.toLink, hk, KLink.attrs,
        KLink.operState]
    · simp [netlink.AddrList, hl', Bridge.Addr]
    · simp [netlink.RouteList, hl', Bridge.Routes]
  · intro h
    have := syncLoop_projection h
    subst this
    exact ⟨rfl, rfl, rfl⟩

/-- Instance of C10 as amended: `Ensure` on a node without the bridge, `ClearAddr` on a
bridge holding one address, and `SyncIPv4Addr` on a fresh `NewBridge`, whose cached link
receives the index 7 of the kernel bridge while `Addr()` stays empty. -/
theorem projection_after_mutation_witness :
    fetchByName "harvester-br0" ((NewBridge "harvester-br0").Ensure emptyKernel).2.2 =
      .ok ((NewBridge "harvester-br0").Ensure emptyKernel).2.1.bridge ∧
    (netlink.AddrList ((NewBridge "harvester-br0").ClearAddr
        (bridgeKernel "harvester-br0" [⟨"10.0.0.9/24", "harvester-br0"⟩])).2.1.bridge
      ((NewBridge "harvester-br0").ClearAddr
        (bridgeKernel "harvester-br0" [⟨"10.0.0.9/24", "harvester-br0"⟩])).2.2).1 = .ok [] ∧
    ((NewBridge "harvester-br0").SyncIPv4Addr slaveEth0
        (bridgeKernel "harvester-br0" [])).2.1.Addr = [] ∧
    ((NewBridge "harvester-br0").SyncIPv4Addr slaveEth0
        (bridgeKernel "harvester-br0" [])).2.1.bridge =
      netlink.ensureIndex (NewBridge "harvester-br0").bridge
        (bridgeKernel "harvester-br0" []) :=
  ⟨((projection_after_mutation (NewBridge "harvester-br0")
      ((NewBridge "harvester-br0").Ensure emptyKernel).2.1 slaveEth0 emptyKernel
      ((NewBridge "harvester-br0").Ensure emptyKernel).2.2).1 (by decide)).2.1,
    ((projection_after_mutation (NewBridge "harvester-br0")
      ((NewBridge "harvester-br0").ClearAddr
        (bridgeKernel "harvester-br0" [⟨"10.0.0.9/24", "harvester-br0"⟩])).2.1 slaveEth0
      (bridgeKernel "harvester-br0" [⟨"10.0.0.9/24", "harvester-br0"⟩])
      ((NewBridge "harvester-br0").ClearAddr
        (bridgeKernel "harvester-br0" [⟨"10.0.0.9/24", "harvester-br0"⟩])).2.2).2.1
      (by decide)).2.1,
    ((projection_after_mutation (NewBridge "harvester-br0")
      ((NewBridge "harvester-br0").SyncIPv4Addr slaveEth0
        (bridgeKernel "harvester-br0" [])).2.1 slaveEth0
      (bridgeKernel "harvester-br0" [])
      ((NewBridge "harvester-br0").SyncIPv4Addr slaveEth0
        (bridgeKernel "harvester-br0" [])).2.2).2.2 (by decide)).1,
    ((projection_after_mutation (NewBridge "harvester-br0")
      ((NewBridge "harvester-br0").SyncIPv4Addr slaveEth0
        (bridgeKernel "harvester-br0" [])).2.1 slaveEth0
      (bridgeKernel "harvester-br0" [])
      ((NewBridge "harvester-br0").SyncIPv4Addr slaveEth0
        (bridgeKernel "harvester-br0" [])).2.2).2.2 (by decide)).2.2⟩

/-- C10, counterexample. The bridge holds `10.0.0.9/24`. After a successful `ClearAddr` the
kernel holds no address on the bridge, yet `Addr()` of the projection still lists
`10.0.0.9/24`. After a successful `SyncIPv4Addr` on a fresh `NewBridge` the kernel holds
two addresses on the bridge and `Addr()` of the projection is empty. -/
theorem projection_stale_after_address_change :
    ((NewBridge "harvester-br0").ClearAddr
      (bridgeKernel "harvester-br0" [⟨"10.0.0.9/24", "harvester-br0"⟩])).1 = none ∧
    (findLink "harvester-br0" ((NewBridge "harvester-br0").ClearAddr
      (bridgeKernel "harvester-br0" [⟨"10.0.0.9/24", "harvester-br0"⟩])).2.2.links).map
      (fun l => l.addrs) = some [] ∧
    ((NewBridge "harvester-br0").ClearAddr
      (bridgeKernel "harvester-br0" [⟨"10.0.0.9/24", "harvester-br0"⟩])).2.1.Addr =
      [⟨"10.0.0.9/24", "harvester-br0"⟩] ∧
    ((NewBridge "harvester-br0").SyncIPv4Addr slaveEth0
      (bridgeKernel "harvester-br0" [⟨"10.0.0.9/24", "harvester-br0"⟩])).1 = none ∧
    (findLink "harvester-br0" ((NewBridge "harvester-br0").SyncIPv4Addr slaveEth0
      (bridgeKernel "harvester-br0" [⟨"10.0.0.9/24", "harvester-br0"⟩])).2.2.links).map
      (fun l => l.addrs) =
      some [⟨"10.0.0.9/24", "harvester-br0"⟩, ⟨"10.0.0.1/24", "harvester-br0"⟩] ∧
    ((NewBridge "harvester-br0").SyncIPv4Addr slaveEth0
      (bridgeKernel "harvester-br0" [⟨"10.0.0.9/24", "harvester-br0"⟩])).2.1.Addr = [] := by
  decide

end Harvester
